import Mathlib

/-! # MainWindowModel (Engauge Digitizer): embedding of `src/main/MainWindowModel.cpp`

The class is a settings holder with ten members, getters, setters, a copy constructor, an
assignment operator, a diagnostic dump (`printStream`) and xml load/save routines.

Conventions of the embedding:

* a C++ member function `T C::f(args)` that may change `*this` becomes a Lean function that
  returns the new object; a function that drives a collaborator passed by reference (xml reader,
  xml writer, text stream) also returns the new state of that collaborator;
* C++ `int` is `Int` (the functions here only store and print ints, they never compute with
  them); an unscoped C++ enum is represented by its underlying integer value; a `double` is
  represented by its IEEE-754 binary64 bit pattern, because the code stores, copies and prints
  doubles but performs no arithmetic on them;
* constants, enumerators and helpers that are declared in headers outside this translation unit
  are collected in the structure `Headers` and every definition that uses one takes it as an
  argument;
* writes to the log4cpp category `mainCat` are not part of the model.
-/

namespace Engauge

/-! ## Types declared outside the translation unit -/

/-- Underlying value of the enum `ZoomControl` (ZoomControl.h). -/
abbrev ZoomControl := Int

/-- Underlying value of the enum `ZoomFactorInitial` (ZoomFactorInitial.h). -/
abbrev ZoomFactorInitial := Int

/-- Underlying value of the enum `MainTitleBarFormat` (MainTitleBarFormat.h). -/
abbrev MainTitleBarFormat := Int

/-- Underlying value of the enum `ImportCropping` (ImportCropping.h). -/
abbrev ImportCropping := Int

/-- A C++ `double`, identified by its IEEE-754 binary64 bit pattern. -/
structure Double where
  bits : Nat
  deriving DecidableEq, Repr

/-- The double 0.0: all bits clear. -/
def Double.zero : Double := ⟨0⟩

/-- The double 1.0: sign 0, biased exponent 0x3FF, fraction 0. -/
def Double.one : Double := ⟨0x3FF0000000000000⟩

/-- The double 1.5: sign 0, biased exponent 0x3FF, fraction 0x8000000000000 (one half). -/
def Double.onePointFive : Double := ⟨0x3FF8000000000000⟩

/-! ## Qt value types -/

/-- The flags type `QLocale::NumberOptions`: a bit mask of `QLocale::NumberOption` values. -/
abbrev NumberOptions := Nat

/-- The enumerator `QLocale::OmitGroupSeparator` (value 0x01 in qlocale.h). -/
def QLocale.OmitGroupSeparator : NumberOptions := 0x01

/-- The function `QFlags::testFlag`: all bits of `flag` are set in `opts`; the zero flag is only
set in the zero mask. -/
def NumberOptions.testFlag (opts flag : NumberOptions) : Bool :=
  (opts &&& flag == flag) && (flag != 0 || opts == flag)

/-- A `QLocale` value, as far as this class observes it: the language and country it was built
for and its number options. -/
structure QLocale where
  language : Int
  country : Int
  numberOptions : NumberOptions
  deriving DecidableEq, Repr

/-- The function `QLocale::setNumberOptions`: replaces the number options of the locale. -/
def QLocale.setNumberOptions (l : QLocale) (options : NumberOptions) : QLocale :=
  { l with numberOptions := options }

/-- Whether group separators are left out when the locale formats a number. -/
def QLocale.omitsGroupSeparator (l : QLocale) : Bool :=
  NumberOptions.testFlag l.numberOptions QLocale.OmitGroupSeparator

/-- Constants, enumerators and helper functions used by MainWindowModel.cpp whose declarations
live in other files (DocumentSerialize.h, ZoomControl.h, MainTitleBarFormat.h,
ZoomFactorInitial.h, PdfResolution.h, ImportCroppingUtilBase.h, GridLineLimiter.h,
GraphicsPoint.h, Qt). -/
structure Headers where
  /-- Tag of the main window element (DocumentSerialize.h). -/
  DOCUMENT_SERIALIZE_MAIN_WINDOW : String
  /-- Extra indentation of one nesting level in `printStream` output. -/
  INDENTATION_DELTA : String
  ZOOM_CONTROL_MENU_WHEEL_PLUSMINUS : ZoomControl
  MAIN_TITLE_BAR_FORMAT_NO_PATH : MainTitleBarFormat
  MAIN_TITLE_BAR_FORMAT_PATH : MainTitleBarFormat
  DEFAULT_ZOOM_FACTOR_INITIAL : ZoomFactorInitial
  DEFAULT_IMPORT_PDF_RESOLUTION : Int
  DEFAULT_IMPORT_CROPPING : ImportCropping
  DEFAULT_MAXIMUM_GRID_LINES : Int
  DEFAULT_HIGHLIGHT_OPACITY : Double
  /-- Value of a default constructed `QLocale ()`: the default locale of the application. -/
  defaultLocale : QLocale
  /-- The constructor `QLocale (language, country)`. -/
  mkLocale : Int → Int → QLocale
  /-- The function `QLocale::name`. -/
  localeName : QLocale → String
  /-- The function `QObject::tr`: looks the source text up in the installed translations. -/
  tr : String → String
  /-- Text that `ImportCroppingUtilBase::importCroppingToString (c).toLatin1().data()`
  hands to the text stream. -/
  importCroppingToString : ImportCropping → String
  /-- Text written by `QTextStream::operator<< (int)`. -/
  showInt : Int → String
  /-- Text written by `QTextStream::operator<< (double)`. -/
  showDouble : Double → String

/-- File scope variable `HIDE_GROUP_SEPARATOR` (line 24): prevents comma ambiguity with group
separator commas and field delimiting commas. -/
def HIDE_GROUP_SEPARATOR : NumberOptions := QLocale.OmitGroupSeparator

/-- File scope variable `DEFAULT_DRAG_DROP_EXPORT` (line 26). -/
def DEFAULT_DRAG_DROP_EXPORT : Bool := false

/-- File scope variable `DEFAULT_SMALL_DIALOGS` (line 27). -/
def DEFAULT_SMALL_DIALOGS : Bool := false

/-! ## The class -/

/-- Data members of `MainWindowModel`. -/
structure MainWindowModel where
  m_locale : QLocale
  m_zoomControl : ZoomControl
  m_zoomFactorInitial : ZoomFactorInitial
  m_mainTitleBarFormat : MainTitleBarFormat
  m_pdfResolution : Int
  m_importCropping : ImportCropping
  m_maximumGridLines : Int
  m_highlightOpacity : Double
  m_smallDialogs : Bool
  m_dragDropExport : Bool
  deriving DecidableEq, Repr

namespace MainWindowModel

/-! ### Getters (lines 73-86, 109-127, 219-232) -/

/-- Getter `dragDropExport`. -/
def dragDropExport (m : MainWindowModel) : Bool := m.m_dragDropExport

/-- Getter `highlightOpacity`. -/
def highlightOpacity (m : MainWindowModel) : Double := m.m_highlightOpacity

/-- Getter `importCropping`. -/
def importCropping (m : MainWindowModel) : ImportCropping := m.m_importCropping

/-- Getter `locale`. -/
def locale (m : MainWindowModel) : QLocale := m.m_locale

/-- Getter `mainTitleBarFormat`. -/
def mainTitleBarFormat (m : MainWindowModel) : MainTitleBarFormat := m.m_mainTitleBarFormat

/-- Getter `maximumGridLines`. -/
def maximumGridLines (m : MainWindowModel) : Int := m.m_maximumGridLines

/-- Getter `pdfResolution`. -/
def pdfResolution (m : MainWindowModel) : Int := m.m_pdfResolution

/-- Getter `smallDialogs`. -/
def smallDialogs (m : MainWindowModel) : Bool := m.m_smallDialogs

/-- Getter `zoomControl`. -/
def zoomControl (m : MainWindowModel) : ZoomControl := m.m_zoomControl

/-- Getter `zoomFactorInitial`. -/
def zoomFactorInitial (m : MainWindowModel) : ZoomFactorInitial := m.m_zoomFactorInitial

/-! ### Constructors and assignment (lines 29-71) -/

/-- Default constructor (lines 29-41). The member `m_locale` is not in the initializer list, so
it is default constructed. -/
def construct (h : Headers) : MainWindowModel :=
  { m_locale := h.defaultLocale
    m_zoomControl := h.ZOOM_CONTROL_MENU_WHEEL_PLUSMINUS
    m_zoomFactorInitial := h.DEFAULT_ZOOM_FACTOR_INITIAL
    m_mainTitleBarFormat := h.MAIN_TITLE_BAR_FORMAT_PATH
    m_pdfResolution := h.DEFAULT_IMPORT_PDF_RESOLUTION
    m_importCropping := h.DEFAULT_IMPORT_CROPPING
    m_maximumGridLines := h.DEFAULT_MAXIMUM_GRID_LINES
    m_highlightOpacity := h.DEFAULT_HIGHLIGHT_OPACITY
    m_smallDialogs := DEFAULT_SMALL_DIALOGS
    m_dragDropExport := DEFAULT_DRAG_DROP_EXPORT }

/-- Copy constructor (lines 43-55): every member is initialised from the getter of `other`. -/
def copyConstruct (other : MainWindowModel) : MainWindowModel :=
  { m_locale := other.locale
    m_zoomControl := other.zoomControl
    m_zoomFactorInitial := other.zoomFactorInitial
    m_mainTitleBarFormat := other.mainTitleBarFormat
    m_pdfResolution := other.pdfResolution
    m_importCropping := other.importCropping
    m_maximumGridLines := other.maximumGridLines
    m_highlightOpacity := other.highlightOpacity
    m_smallDialogs := other.smallDialogs
    m_dragDropExport := other.dragDropExport }

/-- Assignment `operator=` (lines 57-71): the members of the target `self` are overwritten one
after the other with the getters of `other`; the result is the new value of `*this`. -/
def assign (self other : MainWindowModel) : MainWindowModel :=
  let s := { self with m_locale := other.locale }
  let s := { s with m_zoomControl := other.zoomControl }
  let s := { s with m_zoomFactorInitial := other.zoomFactorInitial }
  let s := { s with m_mainTitleBarFormat := other.mainTitleBarFormat }
  let s := { s with m_pdfResolution := other.pdfResolution }
  let s := { s with m_importCropping := other.importCropping }
  let s := { s with m_maximumGridLines := other.maximumGridLines }
  let s := { s with m_highlightOpacity := other.highlightOpacity }
  let s := { s with m_smallDialogs := other.smallDialogs }
  let s := { s with m_dragDropExport := other.dragDropExport }
  s

/-! ### Setters (lines 158-217) -/

/-- Setter `setDragDropExport`. -/
def setDragDropExport (m : MainWindowModel) (dragDropExport : Bool) : MainWindowModel :=
  { m with m_dragDropExport := dragDropExport }

/-- Setter `setHighlightOpacity`. -/
def setHighlightOpacity (m : MainWindowModel) (highlightOpacity : Double) : MainWindowModel :=
  { m with m_highlightOpacity := highlightOpacity }

/-- Setter `setImportCropping`. -/
def setImportCropping (m : MainWindowModel) (importCropping : ImportCropping) :
    MainWindowModel :=
  { m with m_importCropping := importCropping }

/-- Setter `setLocale (QLocale::Language, QLocale::Country)` (lines 173-181): builds the locale,
sets its number options, then stores it. -/
def setLocaleLanguageCountry (h : Headers) (m : MainWindowModel) (language country : Int) :
    MainWindowModel :=
  let locale := h.mkLocale language country
  let locale := locale.setNumberOptions HIDE_GROUP_SEPARATOR
  { m with m_locale := locale }

/-- Setter `setLocale (const QLocale &)` (lines 183-187): stores the locale, then sets the
number options of the stored copy. -/
def setLocale (m : MainWindowModel) (locale : QLocale) : MainWindowModel :=
  let m := { m with m_locale := locale }
  { m with m_locale := m.m_locale.setNumberOptions HIDE_GROUP_SEPARATOR }

/-- Setter `setMainTitleBarFormat`. -/
def setMainTitleBarFormat (m : MainWindowModel) (mainTitleBarFormat : MainTitleBarFormat) :
    MainWindowModel :=
  { m with m_mainTitleBarFormat := mainTitleBarFormat }

/-- Setter `setMaximumGridLines`. -/
def setMaximumGridLines (m : MainWindowModel) (maximumGridLines : Int) : MainWindowModel :=
  { m with m_maximumGridLines := maximumGridLines }

/-- Setter `setPdfResolution`. -/
def setPdfResolution (m : MainWindowModel) (resolution : Int) : MainWindowModel :=
  { m with m_pdfResolution := resolution }

/-- Setter `setSmallDialogs`. -/
def setSmallDialogs (m : MainWindowModel) (smallDialogs : Bool) : MainWindowModel :=
  { m with m_smallDialogs := smallDialogs }

/-- Setter `setZoomControl`. -/
def setZoomControl (m : MainWindowModel) (zoomControl : ZoomControl) : MainWindowModel :=
  { m with m_zoomControl := zoomControl }

/-- Setter `setZoomFactorInitial`. -/
def setZoomFactorInitial (m : MainWindowModel) (zoomFactorInitial : ZoomFactorInitial) :
    MainWindowModel :=
  { m with m_zoomFactorInitial := zoomFactorInitial }

/-- One call of a setter of the class, with its arguments. -/
inductive SetterCall where
  | setDragDropExport (dragDropExport : Bool)
  | setHighlightOpacity (highlightOpacity : Double)
  | setImportCropping (importCropping : ImportCropping)
  | setLocaleLanguageCountry (language country : Int)
  | setLocale (locale : QLocale)
  | setMainTitleBarFormat (mainTitleBarFormat : MainTitleBarFormat)
  | setMaximumGridLines (maximumGridLines : Int)
  | setPdfResolution (resolution : Int)
  | setSmallDialogs (smallDialogs : Bool)
  | setZoomControl (zoomControl : ZoomControl)
  | setZoomFactorInitial (zoomFactorInitial : ZoomFactorInitial)
  deriving DecidableEq, Repr

/-- Runs one setter call on the object `m`. -/
def SetterCall.run (h : Headers) (m : MainWindowModel) : SetterCall → MainWindowModel
  | .setDragDropExport v => m.setDragDropExport v
  | .setHighlightOpacity v => m.setHighlightOpacity v
  | .setImportCropping v => m.setImportCropping v
  | .setLocaleLanguageCountry l c => m.setLocaleLanguageCountry h l c
  | .setLocale v => m.setLocale v
  | .setMainTitleBarFormat v => m.setMainTitleBarFormat v
  | .setMaximumGridLines v => m.setMaximumGridLines v
  | .setPdfResolution v => m.setPdfResolution v
  | .setSmallDialogs v => m.setSmallDialogs v
  | .setZoomControl v => m.setZoomControl v
  | .setZoomFactorInitial v => m.setZoomFactorInitial v

end MainWindowModel

/-! ## The xml reader -/

/-- The enum `QXmlStreamReader::TokenType`. -/
inductive TokenType where
  | NoToken
  | Invalid
  | StartDocument
  | EndDocument
  | StartElement
  | EndElement
  | Characters
  | Comment
  | DTD
  | EntityReference
  | ProcessingInstruction
  deriving DecidableEq, Repr

/-- What a `QXmlStreamReader` reports while it stands on one token: the results of
`tokenType ()`, `name ()` and `atEnd ()`. The three are independent in this model. -/
structure XmlToken where
  tokenType : TokenType
  name : String
  atEnd : Bool
  deriving DecidableEq, Repr

/-- What the reader reports once `readNext` is called with no token left: an invalid token, and
`atEnd ()` is true. -/
def XmlToken.exhausted : XmlToken :=
  { tokenType := .Invalid, name := "", atEnd := true }

/-- A `QXmlStreamReader` over a finite token stream. `current` is the token the reader stands
on, `pending` are the tokens the next calls of `readNext` deliver, `raised` lists the messages
passed to `raiseError` so far and `advances` counts the calls of `readNext` so far. -/
structure QXmlStreamReader where
  current : XmlToken
  pending : List XmlToken
  raised : List String
  advances : Nat
  deriving DecidableEq, Repr

namespace QXmlStreamReader

/-- The function `QXmlStreamReader::tokenType`. -/
def tokenType (reader : QXmlStreamReader) : TokenType := reader.current.tokenType

/-- The function `QXmlStreamReader::name`. -/
def name (reader : QXmlStreamReader) : String := reader.current.name

/-- The function `QXmlStreamReader::atEnd`. -/
def atEnd (reader : QXmlStreamReader) : Bool := reader.current.atEnd

/-- The function `QXmlStreamReader::readNext`: moves to the next token of the stream; when the
tokens are used up the reader reports exhaustion. -/
def readNext (reader : QXmlStreamReader) : QXmlStreamReader :=
  match reader.pending with
  | t :: ts => { reader with current := t, pending := ts, advances := reader.advances + 1 }
  | [] => { reader with current := XmlToken.exhausted, advances := reader.advances + 1 }

/-- The function `QXmlStreamReader::raiseError`: records the message; the reader then reports
an invalid token and `atEnd ()`. -/
def raiseError (reader : QXmlStreamReader) (message : String) : QXmlStreamReader :=
  { reader with
    current := { reader.current with tokenType := .Invalid, atEnd := true }
    raised := reader.raised ++ [message] }

/-- The reader after `n` further calls of `readNext`. -/
def after (reader : QXmlStreamReader) (n : Nat) : QXmlStreamReader :=
  readNext^[n] reader

end QXmlStreamReader

/-- Modelled from the spec: `loadNextFromReader` is declared in Xml.h and defined outside this
translation unit; the spec describes it as the request that advances the reader to the next
token. -/
def loadNextFromReader (reader : QXmlStreamReader) : QXmlStreamReader :=
  reader.readNext

/-! ## The xml writer and the text stream -/

/-- A call received by a `QXmlStreamWriter`. -/
inductive XmlWriterCall where
  | writeStartElement (qualifiedName : String)
  | writeEndElement
  deriving DecidableEq, Repr

/-- A `QXmlStreamWriter`, identified by the calls it has received, oldest first. -/
structure QXmlStreamWriter where
  calls : List XmlWriterCall
  deriving DecidableEq, Repr

/-- The function `QXmlStreamWriter::writeStartElement`. -/
def QXmlStreamWriter.writeStartElement (writer : QXmlStreamWriter) (qualifiedName : String) :
    QXmlStreamWriter :=
  { calls := writer.calls ++ [.writeStartElement qualifiedName] }

/-- The function `QXmlStreamWriter::writeEndElement`. -/
def QXmlStreamWriter.writeEndElement (writer : QXmlStreamWriter) : QXmlStreamWriter :=
  { calls := writer.calls ++ [.writeEndElement] }

/-- A `QTextStream` with default formatting (field width 0), identified by the text written to
it so far. -/
structure QTextStream where
  text : String
  deriving DecidableEq, Repr

/-- The operator `QTextStream::operator<<` for a string: appends the string. -/
def QTextStream.put (str : QTextStream) (s : String) : QTextStream :=
  { text := str.text ++ s }

namespace MainWindowModel

/-! ### loadXml (lines 88-107) -/

/-- The test of the while loop (lines 95-96). -/
def loadXmlContinues (h : Headers) (reader : QXmlStreamReader) : Bool :=
  (reader.tokenType != TokenType.EndElement) ||
  (reader.name != h.DOCUMENT_SERIALIZE_MAIN_WINDOW)

/-- The while loop of `loadXml` (lines 95-102), run for at most `fuel` tests of the loop
condition. The result is the reader together with the local variable `success`; `none` means the
fuel ran out. -/
def loadXmlLoop (h : Headers) : Nat → QXmlStreamReader → Option (QXmlStreamReader × Bool)
  | 0, _ => none
  | fuel + 1, reader =>
    if loadXmlContinues h reader then
      let reader := loadNextFromReader reader
      if reader.atEnd then
        some (reader, false)
      else
        loadXmlLoop h fuel reader
    else
      some (reader, true)

/-- The function `loadXml` (lines 88-107): the loop, then `raiseError` when `success` is false.
Returns the object and the reader as the call leaves them. -/
def loadXml (h : Headers) (fuel : Nat) (m : MainWindowModel) (reader : QXmlStreamReader) :
    Option (MainWindowModel × QXmlStreamReader) :=
  match loadXmlLoop h fuel reader with
  | none => none
  | some (reader, success) =>
    if !success then
      some (m, reader.raiseError (h.tr "Cannot read main window data"))
    else
      some (m, reader)

/-! ### printStream (lines 129-148) -/

/-- The function `printStream`. It is declared const, so the object is returned as received. -/
def printStream (h : Headers) (m : MainWindowModel) (indentation : String)
    (str : QTextStream) : MainWindowModel × QTextStream :=
  let str := (str.put indentation).put "MainWindowModel\n"
  let indentation := indentation ++ h.INDENTATION_DELTA
  let str := (((str.put indentation).put "locale=").put (h.localeName m.m_locale)).put "\n"
  let str := (((str.put indentation).put "zoomControl=").put (h.showInt m.m_zoomControl)).put "\n"
  let str := (((str.put indentation).put "zoomFactorInitial=").put
    (h.showInt m.m_zoomFactorInitial)).put "\n"
  let str := (((str.put indentation).put "mainWindowTitleBarFormat=").put
    (if m.m_mainTitleBarFormat = h.MAIN_TITLE_BAR_FORMAT_NO_PATH then "NoPath" else "Path")).put
    "\n"
  let str := (((str.put indentation).put "pdfResolution=").put
    (h.showInt m.m_pdfResolution)).put "\n"
  let str := (((str.put indentation).put "importCropping=").put
    (h.importCroppingToString m.m_importCropping)).put "\n"
  let str := (((str.put indentation).put "maximumGridLines=").put
    (h.showInt m.m_maximumGridLines)).put "\n"
  let str := (((str.put indentation).put "highlightOpacity=").put
    (h.showDouble m.m_highlightOpacity)).put "\n"
  let str := (((str.put indentation).put "smallDialogs=").put
    (if m.m_smallDialogs then "yes" else "no")).put "\n"
  let str := (((str.put indentation).put "dragDropExport=").put
    (if m.m_dragDropExport then "yes" else "no")).put "\n"
  (m, str)

/-! ### saveXml (lines 150-156) -/

/-- The function `saveXml`. It is declared const, so the object is returned as received. -/
def saveXml (h : Headers) (m : MainWindowModel) (writer : QXmlStreamWriter) :
    MainWindowModel × QXmlStreamWriter :=
  let writer := writer.writeStartElement h.DOCUMENT_SERIALIZE_MAIN_WINDOW
  let writer := writer.writeEndElement
  (m, writer)

end MainWindowModel

/-! ## Sample values used to instantiate the theorems -/

/-- A sample set of header values. -/
def sampleHeaders : Headers :=
  { DOCUMENT_SERIALIZE_MAIN_WINDOW := "MainWindow"
    INDENTATION_DELTA := "  "
    ZOOM_CONTROL_MENU_WHEEL_PLUSMINUS := 3
    MAIN_TITLE_BAR_FORMAT_NO_PATH := 0
    MAIN_TITLE_BAR_FORMAT_PATH := 1
    DEFAULT_ZOOM_FACTOR_INITIAL := 0
    DEFAULT_IMPORT_PDF_RESOLUTION := 300
    DEFAULT_IMPORT_CROPPING := 0
    DEFAULT_MAXIMUM_GRID_LINES := 100
    DEFAULT_HIGHLIGHT_OPACITY := Double.one
    defaultLocale := { language := 1, country := 0, numberOptions := 0 }
    mkLocale := fun language country =>
      { language := language, country := country, numberOptions := 0 }
    localeName := fun l => toString l.language ++ "_" ++ toString l.country
    tr := fun s => s
    importCroppingToString := fun c => toString c
    showInt := fun i => toString i
    showDouble := fun d => toString d.bits }

/-- A sample object: the default constructed one. -/
def sampleModel : MainWindowModel := MainWindowModel.construct sampleHeaders

/-! ## Notions used to state the properties -/

/-- An `EndElement` token named `DOCUMENT_SERIALIZE_MAIN_WINDOW`. -/
def XmlToken.isMainWindowEnd (h : Headers) (t : XmlToken) : Bool :=
  t.tokenType == TokenType.EndElement && t.name == h.DOCUMENT_SERIALIZE_MAIN_WINDOW

/-- A sample reader that stands on the start element of a main window subtree whose input ends
after one text token, before any closing element. -/
def truncatedReader : QXmlStreamReader :=
  { current := { tokenType := .StartElement, name := "MainWindow", atEnd := false }
    pending := [{ tokenType := .Characters, name := "", atEnd := false }]
    raised := []
    advances := 0 }

/-- Token types that may occur between the tags of a well-formed element: text, comments,
DTD, entity references and processing instructions. -/
def TokenType.isContent : TokenType → Bool
  | .Characters | .Comment | .DTD | .EntityReference | .ProcessingInstruction => true
  | _ => false

/-- Index in `ts` of the end element that closes the main window element the reader stands
on, when the tokens up to it are properly nested: every end element closes the innermost open
element and carries its name. `opened` lists the names of the elements opened inside the subtree
and not closed yet, innermost first; `root` is the name of the subtree element. The result is
`none` when the tokens do not form a well-formed subtree. -/
def closingIndex (root : String) : List String → List XmlToken → Option Nat
  | _, [] => none
  | opened, t :: ts =>
    if t.tokenType = TokenType.StartElement then
      (closingIndex root (t.name :: opened) ts).map (· + 1)
    else if t.tokenType = TokenType.EndElement then
      if t.name = opened.headD root then
        if opened.isEmpty then some 0 else (closingIndex root opened.tail ts).map (· + 1)
      else none
    else if t.tokenType.isContent then
      (closingIndex root opened ts).map (· + 1)
    else none

/-- A sample reader on the start element of an empty main window subtree, followed by more of
the document. -/
def emptySubtreeReader : QXmlStreamReader :=
  { current := { tokenType := .StartElement, name := "MainWindow", atEnd := false }
    pending := [{ tokenType := .EndElement, name := "MainWindow", atEnd := false },
                { tokenType := .EndElement, name := "Document", atEnd := false }]
    raised := []
    advances := 0 }

/-- A sample reader on the start element of a well-formed main window subtree that contains a
nested element of the same name: the tokens of
`<MainWindow><MainWindow></MainWindow></MainWindow>` after the first. -/
def nestedReader : QXmlStreamReader :=
  { current := { tokenType := .StartElement, name := "MainWindow", atEnd := false }
    pending := [{ tokenType := .StartElement, name := "MainWindow", atEnd := false },
                { tokenType := .EndElement, name := "MainWindow", atEnd := false },
                { tokenType := .EndElement, name := "MainWindow", atEnd := false }]
    raised := []
    advances := 0 }

/-- The keys and values of the ten field lines of the dump, in the order of the claim. -/
def MainWindowModel.printStreamFields (h : Headers) (m : MainWindowModel) :
    List (String × String) :=
  [("locale", h.localeName m.locale),
   ("zoomControl", h.showInt m.zoomControl),
   ("zoomFactorInitial", h.showInt m.zoomFactorInitial),
   ("mainWindowTitleBarFormat",
      if m.mainTitleBarFormat = h.MAIN_TITLE_BAR_FORMAT_NO_PATH then "NoPath" else "Path"),
   ("pdfResolution", h.showInt m.pdfResolution),
   ("importCropping", h.importCroppingToString m.importCropping),
   ("maximumGridLines", h.showInt m.maximumGridLines),
   ("highlightOpacity", h.showDouble m.highlightOpacity),
   ("smallDialogs", if m.smallDialogs then "yes" else "no"),
   ("dragDropExport", if m.dragDropExport then "yes" else "no")]

/-- One line of the dump: the leading indentation, then key, equals sign, value, newline. -/
def fieldLine (lead : String) (kv : String × String) : String :=
  lead ++ kv.1 ++ "=" ++ kv.2 ++ "\n"

/-- The text made of the given lines, one after the other. -/
def concatLines : List String → String
  | [] => ""
  | l :: ls => l ++ concatLines ls

/-- All ten getters return the same values on `a` and on `b`. -/
def MainWindowModel.sameFields (a b : MainWindowModel) : Prop :=
  a.locale = b.locale ∧ a.zoomControl = b.zoomControl ∧
  a.zoomFactorInitial = b.zoomFactorInitial ∧ a.mainTitleBarFormat = b.mainTitleBarFormat ∧
  a.pdfResolution = b.pdfResolution ∧ a.importCropping = b.importCropping ∧
  a.maximumGridLines = b.maximumGridLines ∧ a.highlightOpacity = b.highlightOpacity ∧
  a.smallDialogs = b.smallDialogs ∧ a.dragDropExport = b.dragDropExport

/-- The ten fields of the class. -/
inductive MainWindowModel.Field where
  | locale
  | zoomControl
  | zoomFactorInitial
  | mainTitleBarFormat
  | pdfResolution
  | importCropping
  | maximumGridLines
  | highlightOpacity
  | smallDialogs
  | dragDropExport
  deriving DecidableEq, Repr

/-- The field a setter is named after. -/
def MainWindowModel.SetterCall.target : MainWindowModel.SetterCall → MainWindowModel.Field
  | .setDragDropExport _ => .dragDropExport
  | .setHighlightOpacity _ => .highlightOpacity
  | .setImportCropping _ => .importCropping
  | .setLocaleLanguageCountry _ _ => .locale
  | .setLocale _ => .locale
  | .setMainTitleBarFormat _ => .mainTitleBarFormat
  | .setMaximumGridLines _ => .maximumGridLines
  | .setPdfResolution _ => .pdfResolution
  | .setSmallDialogs _ => .smallDialogs
  | .setZoomControl _ => .zoomControl
  | .setZoomFactorInitial _ => .zoomFactorInitial

/-- The getter of field `f` returns the same value on `a` and on `b`. -/
def MainWindowModel.Field.sameOn (f : MainWindowModel.Field) (a b : MainWindowModel) : Prop :=
  match f with
  | .locale => a.locale = b.locale
  | .zoomControl => a.zoomControl = b.zoomControl
  | .zoomFactorInitial => a.zoomFactorInitial = b.zoomFactorInitial
  | .mainTitleBarFormat => a.mainTitleBarFormat = b.mainTitleBarFormat
  | .pdfResolution => a.pdfResolution = b.pdfResolution
  | .importCropping => a.importCropping = b.importCropping
  | .maximumGridLines => a.maximumGridLines = b.maximumGridLines
  | .highlightOpacity => a.highlightOpacity = b.highlightOpacity
  | .smallDialogs => a.smallDialogs = b.smallDialogs
  | .dragDropExport => a.dragDropExport = b.dragDropExport

/-- There is an advance after which the reader reports `atEnd ()` while neither the entry
position nor any position before that advance is an `EndElement` named
`DOCUMENT_SERIALIZE_MAIN_WINDOW`. -/
def QXmlStreamReader.exhaustedBeforeEnd (h : Headers) (r : QXmlStreamReader) : Prop :=
  ∃ k, (r.after (k + 1)).atEnd = true ∧
    ∀ j, j ≤ k → (r.after j).current.isMainWindowEnd h = false

/-- A sample reader whose first advance lands on the closing main window element while the
reader reports exhaustion at the same time. -/
def landingReader : QXmlStreamReader :=
  { current := { tokenType := .StartElement, name := "MainWindow", atEnd := false }
    pending := [{ tokenType := .EndElement, name := "MainWindow", atEnd := true }]
    raised := []
    advances := 0 }

/-- A sample reader that stands on the closing main window element at entry and reports
exhaustion there. -/
def entryReader : QXmlStreamReader :=
  { current := { tokenType := .EndElement, name := "MainWindow", atEnd := true }
    pending := [{ tokenType := .Characters, name := "", atEnd := false }]
    raised := []
    advances := 0 }

/-- A sample reader on the start element of a well-formed main window subtree that holds an
element of another name and a nested element named like the subtree, with a further token
after the subtree. -/
def mixedReader : QXmlStreamReader :=
  { current := { tokenType := .StartElement, name := "MainWindow", atEnd := false }
    pending := [{ tokenType := .StartElement, name := "Other", atEnd := false },
                { tokenType := .EndElement, name := "Other", atEnd := false },
                { tokenType := .StartElement, name := "MainWindow", atEnd := false },
                { tokenType := .Characters, name := "", atEnd := false },
                { tokenType := .EndElement, name := "MainWindow", atEnd := false },
                { tokenType := .EndElement, name := "MainWindow", atEnd := false },
                { tokenType := .EndElement, name := "Document", atEnd := false }]
    raised := []
    advances := 0 }

/-! ## Objects in memory

The member functions again, this time acting on objects that live at addresses of a store. A
member function receives the address `this` of its object; the parameter `other` of the copy
constructor and of `operator=` is a C++ reference, so it is an address too and may denote the
same object as `this`. Every member of the class is held by value (Qt documents `QLocale` as a
value type), so an object occupies the storage at its own address only. -/

/-- The objects of the class in memory: the object stored at each address. -/
structure Store where
  obj : Nat → MainWindowModel

namespace Store

/-- Overwrites the storage at address `a` with `m`; other addresses keep their content. -/
def put (s : Store) (a : Nat) (m : MainWindowModel) : Store :=
  { obj := fun b => if b = a then m else s.obj b }

/-- Copy constructor (lines 43-55) building the object at `this` from the object at `other`:
each member of `*this` is initialised from the getter called on `other`. -/
def copyConstruct (s : Store) (this other : Nat) : Store :=
  s.put this
    { m_locale := (s.obj other).locale
      m_zoomControl := (s.obj other).zoomControl
      m_zoomFactorInitial := (s.obj other).zoomFactorInitial
      m_mainTitleBarFormat := (s.obj other).mainTitleBarFormat
      m_pdfResolution := (s.obj other).pdfResolution
      m_importCropping := (s.obj other).importCropping
      m_maximumGridLines := (s.obj other).maximumGridLines
      m_highlightOpacity := (s.obj other).highlightOpacity
      m_smallDialogs := (s.obj other).smallDialogs
      m_dragDropExport := (s.obj other).dragDropExport }

/-- Assignment `operator=` (lines 57-71) on the object at `this`: ten statements, each reading
a getter of the object at `other` as the store then is and writing one member of `*this`. -/
def assign (s : Store) (this other : Nat) : Store :=
  let s := s.put this { s.obj this with m_locale := (s.obj other).locale }
  let s := s.put this { s.obj this with m_zoomControl := (s.obj other).zoomControl }
  let s := s.put this { s.obj this with m_zoomFactorInitial := (s.obj other).zoomFactorInitial }
  let s := s.put this
    { s.obj this with m_mainTitleBarFormat := (s.obj other).mainTitleBarFormat }
  let s := s.put this { s.obj this with m_pdfResolution := (s.obj other).pdfResolution }
  let s := s.put this { s.obj this with m_importCropping := (s.obj other).importCropping }
  let s := s.put this { s.obj this with m_maximumGridLines := (s.obj other).maximumGridLines }
  let s := s.put this { s.obj this with m_highlightOpacity := (s.obj other).highlightOpacity }
  let s := s.put this { s.obj this with m_smallDialogs := (s.obj other).smallDialogs }
  let s := s.put this { s.obj this with m_dragDropExport := (s.obj other).dragDropExport }
  s

/-- Setter `setDragDropExport` (lines 158-161) on the object at `this`. -/
def setDragDropExport (s : Store) (this : Nat) (dragDropExport : Bool) : Store :=
  s.put this { s.obj this with m_dragDropExport := dragDropExport }

/-- Setter `setHighlightOpacity` (lines 163-166) on the object at `this`. -/
def setHighlightOpacity (s : Store) (this : Nat) (highlightOpacity : Double) : Store :=
  s.put this { s.obj this with m_highlightOpacity := highlightOpacity }

/-- Setter `setImportCropping` (lines 168-171) on the object at `this`. -/
def setImportCropping (s : Store) (this : Nat) (importCropping : ImportCropping) : Store :=
  s.put this { s.obj this with m_importCropping := importCropping }

/-- Setter `setLocale (QLocale::Language, QLocale::Country)` (lines 173-181) on the object at
`this`: the locale is a local variable until it is stored. -/
def setLocaleLanguageCountry (h : Headers) (s : Store) (this : Nat) (language country : Int) :
    Store :=
  let locale := h.mkLocale language country
  let locale := locale.setNumberOptions HIDE_GROUP_SEPARATOR
  s.put this { s.obj this with m_locale := locale }

/-- Setter `setLocale (const QLocale &)` (lines 183-187) on the object at `this`: stores the
locale, then sets the number options of the stored member. -/
def setLocale (s : Store) (this : Nat) (locale : QLocale) : Store :=
  let s := s.put this { s.obj this with m_locale := locale }
  s.put this
    { s.obj this with m_locale := (s.obj this).m_locale.setNumberOptions HIDE_GROUP_SEPARATOR }

/-- Setter `setMainTitleBarFormat` (lines 189-192) on the object at `this`. -/
def setMainTitleBarFormat (s : Store) (this : Nat) (mainTitleBarFormat : MainTitleBarFormat) :
    Store :=
  s.put this { s.obj this with m_mainTitleBarFormat := mainTitleBarFormat }

/-- Setter `setMaximumGridLines` (lines 194-197) on the object at `this`. -/
def setMaximumGridLines (s : Store) (this : Nat) (maximumGridLines : Int) : Store :=
  s.put this { s.obj this with m_maximumGridLines := maximumGridLines }

/-- Setter `setPdfResolution` (lines 199-202) on the object at `this`. -/
def setPdfResolution (s : Store) (this : Nat) (resolution : Int) : Store :=
  s.put this { s.obj this with m_pdfResolution := resolution }

/-- Setter `setSmallDialogs` (lines 204-207) on the object at `this`. -/
def setSmallDialogs (s : Store) (this : Nat) (smallDialogs : Bool) : Store :=
  s.put this { s.obj this with m_smallDialogs := smallDialogs }

/-- Setter `setZoomControl` (lines 209-212) on the object at `this`. -/
def setZoomControl (s : Store) (this : Nat) (zoomControl : ZoomControl) : Store :=
  s.put this { s.obj this with m_zoomControl := zoomControl }

/-- Setter `setZoomFactorInitial` (lines 214-217) on the object at `this`. -/
def setZoomFactorInitial (s : Store) (this : Nat) (zoomFactorInitial : ZoomFactorInitial) :
    Store :=
  s.put this { s.obj this with m_zoomFactorInitial := zoomFactorInitial }

/-- Runs one setter call on the object at `this`. -/
def call (h : Headers) (s : Store) (this : Nat) : MainWindowModel.SetterCall → Store
  | .setDragDropExport v => s.setDragDropExport this v
  | .setHighlightOpacity v => s.setHighlightOpacity this v
  | .setImportCropping v => s.setImportCropping this v
  | .setLocaleLanguageCountry l c => s.setLocaleLanguageCountry h this l c
  | .setLocale v => s.setLocale this v
  | .setMainTitleBarFormat v => s.setMainTitleBarFormat this v
  | .setMaximumGridLines v => s.setMaximumGridLines this v
  | .setPdfResolution v => s.setPdfResolution this v
  | .setSmallDialogs v => s.setSmallDialogs this v
  | .setZoomControl v => s.setZoomControl this v
  | .setZoomFactorInitial v => s.setZoomFactorInitial this v

end Store

/-- A sample store: a customised object at address 0, default constructed objects elsewhere. -/
def sampleStore : Store :=
  { obj := fun a =>
      if a = 0 then (sampleModel.setPdfResolution 600).setSmallDialogs true else sampleModel }

/-! ## Lemmas on the reader -/

theorem QXmlStreamReader.after_zero (r : QXmlStreamReader) : r.after 0 = r := rfl

theorem QXmlStreamReader.after_succ (r : QXmlStreamReader) (n : Nat) :
    r.after (n + 1) = r.readNext.after n := by
  simp [QXmlStreamReader.after, Function.iterate_succ_apply]

theorem QXmlStreamReader.readNext_raised (r : QXmlStreamReader) :
    r.readNext.raised = r.raised := by
  unfold QXmlStreamReader.readNext
  split <;> rfl

theorem QXmlStreamReader.readNext_advances (r : QXmlStreamReader) :
    r.readNext.advances = r.advances + 1 := by
  unfold QXmlStreamReader.readNext
  split <;> rfl

theorem QXmlStreamReader.after_raised (n : Nat) :
    ∀ r : QXmlStreamReader, (r.after n).raised = r.raised := by
  induction n with
  | zero => intro r; rfl
  | succ n ih => intro r; rw [QXmlStreamReader.after_succ, ih, QXmlStreamReader.readNext_raised]

theorem QXmlStreamReader.after_advances (n : Nat) :
    ∀ r : QXmlStreamReader, (r.after n).advances = r.advances + n := by
  induction n with
  | zero => intro r; rfl
  | succ n ih =>
    intro r
    rw [QXmlStreamReader.after_succ, ih, QXmlStreamReader.readNext_advances]
    omega

theorem QXmlStreamReader.readNext_atEnd_of_nil (r : QXmlStreamReader) (hp : r.pending = []) :
    r.readNext.atEnd = true := by
  unfold QXmlStreamReader.readNext
  rw [hp]
  rfl

theorem QXmlStreamReader.readNext_pending_length (r : QXmlStreamReader) :
    r.readNext.pending.length = r.pending.length - 1 := by
  unfold QXmlStreamReader.readNext
  split
  next t ts hp => simp [hp]
  next hp => simp [hp]

/-! ## Lemmas on the loop of loadXml -/

theorem MainWindowModel.loadXmlContinues_eq (h : Headers) (r : QXmlStreamReader) :
    MainWindowModel.loadXmlContinues h r = !(r.current.isMainWindowEnd h) := by
  simp only [MainWindowModel.loadXmlContinues, XmlToken.isMainWindowEnd,
    QXmlStreamReader.tokenType, QXmlStreamReader.name, bne, Bool.not_and]

/-- The loop leaves through the `atEnd` test when an advance lands on an exhausted position
before the loop condition fails: it stops after the first such advance. -/
theorem MainWindowModel.loadXmlLoop_exhausted (h : Headers) (k : Nat) :
    ∀ r : QXmlStreamReader, (r.after (k + 1)).atEnd = true →
      (∀ j, j ≤ k → (r.after j).current.isMainWindowEnd h = false) →
      ∃ n, n ≤ k ∧ ∀ extra,
        MainWindowModel.loadXmlLoop h (k + 1 + extra) r = some (r.after (n + 1), false) := by
  induction k with
  | zero =>
    intro r hEnd hOpen
    refine ⟨0, le_refl _, fun extra => ?_⟩
    have h0 := hOpen 0 (le_refl _)
    rw [QXmlStreamReader.after_zero] at h0
    have hEnd1 : (loadNextFromReader r).atEnd = true := hEnd
    have hfuel : 0 + 1 + extra = extra + 1 := by omega
    rw [hfuel]
    simp only [MainWindowModel.loadXmlLoop, MainWindowModel.loadXmlContinues_eq, h0, hEnd1]
    rfl
  | succ k ih =>
    intro r hEnd hOpen
    have h0 := hOpen 0 (Nat.zero_le _)
    rw [QXmlStreamReader.after_zero] at h0
    have hfuel : ∀ extra, k + 1 + 1 + extra = (k + 1 + extra) + 1 := by intro extra; omega
    by_cases h1 : (loadNextFromReader r).atEnd = true
    · refine ⟨0, Nat.zero_le _, fun extra => ?_⟩
      rw [hfuel]
      simp only [MainWindowModel.loadXmlLoop, MainWindowModel.loadXmlContinues_eq, h0, h1]
      rfl
    · have hEnd2 : (r.readNext.after (k + 1)).atEnd = true := by
        rw [← QXmlStreamReader.after_succ]; exact hEnd
      have hOpen2 : ∀ j, j ≤ k → (r.readNext.after j).current.isMainWindowEnd h = false := by
        intro j hj
        rw [← QXmlStreamReader.after_succ]
        exact hOpen (j + 1) (by omega)
      obtain ⟨n, hn, hrun⟩ := ih r.readNext hEnd2 hOpen2
      refine ⟨n + 1, by omega, fun extra => ?_⟩
      rw [hfuel]
      simp only [MainWindowModel.loadXmlLoop, MainWindowModel.loadXmlContinues_eq, h0, h1]
      rw [QXmlStreamReader.after_succ]
      exact hrun extra

/-- The loop leaves through its condition when the reader reaches a closing main window element
after `k` advances, none of which lands on an exhausted position. -/
theorem MainWindowModel.loadXmlLoop_closing (h : Headers) (k : Nat) :
    ∀ r : QXmlStreamReader, (r.after k).current.isMainWindowEnd h = true →
      (∀ j, j < k → (r.after j).current.isMainWindowEnd h = false) →
      (∀ j, j < k → (r.after (j + 1)).atEnd = false) →
      ∀ extra, MainWindowModel.loadXmlLoop h (k + 1 + extra) r = some (r.after k, true) := by
  induction k with
  | zero =>
    intro r hClose _ _ extra
    rw [QXmlStreamReader.after_zero] at hClose
    have hfuel : 0 + 1 + extra = extra + 1 := by omega
    rw [hfuel]
    simp only [MainWindowModel.loadXmlLoop, MainWindowModel.loadXmlContinues_eq, hClose]
    rfl
  | succ k ih =>
    intro r hClose hOpen hLive extra
    have h0 := hOpen 0 (Nat.succ_pos _)
    rw [QXmlStreamReader.after_zero] at h0
    have h1 : (loadNextFromReader r).atEnd = false := hLive 0 (Nat.succ_pos _)
    have hfuel : k + 1 + 1 + extra = (k + 1 + extra) + 1 := by omega
    rw [hfuel]
    simp only [MainWindowModel.loadXmlLoop, MainWindowModel.loadXmlContinues_eq, h0, h1]
    rw [QXmlStreamReader.after_succ]
    refine ih r.readNext ?_ ?_ ?_ extra
    · rw [← QXmlStreamReader.after_succ]; exact hClose
    · intro j hj
      rw [← QXmlStreamReader.after_succ]
      exact hOpen (j + 1) (by omega)
    · intro j hj
      rw [← QXmlStreamReader.after_succ]
      exact hLive (j + 1) (by omega)

/-- On a reader with `n` pending tokens the loop returns with any fuel of at least `n + 2`,
after at most `n + 1` advances. -/
theorem MainWindowModel.loadXmlLoop_total (h : Headers) (n : Nat) :
    ∀ r : QXmlStreamReader, r.pending.length = n →
      ∃ k success, k ≤ n + 1 ∧ ∀ extra,
        MainWindowModel.loadXmlLoop h (n + 2 + extra) r = some (r.after k, success) := by
  induction n with
  | zero =>
    intro r hlen
    have hp : r.pending = [] := List.length_eq_zero.mp hlen
    by_cases h0 : r.current.isMainWindowEnd h = true
    · refine ⟨0, true, Nat.zero_le _, fun extra => ?_⟩
      have hfuel : 0 + 2 + extra = (extra + 1) + 1 := by omega
      rw [hfuel]
      simp only [MainWindowModel.loadXmlLoop, MainWindowModel.loadXmlContinues_eq, h0]
      rfl
    · have h1 : (loadNextFromReader r).atEnd = true :=
        QXmlStreamReader.readNext_atEnd_of_nil r hp
      refine ⟨1, false, le_refl _, fun extra => ?_⟩
      have hfuel : 0 + 2 + extra = (extra + 1) + 1 := by omega
      rw [hfuel]
      simp only [Bool.not_eq_true] at h0
      simp only [MainWindowModel.loadXmlLoop, MainWindowModel.loadXmlContinues_eq, h0, h1]
      rfl
  | succ n ih =>
    intro r hlen
    have hfuel : ∀ extra, n + 1 + 2 + extra = (n + 2 + extra) + 1 := by intro extra; omega
    by_cases h0 : r.current.isMainWindowEnd h = true
    · refine ⟨0, true, Nat.zero_le _, fun extra => ?_⟩
      rw [hfuel]
      simp only [MainWindowModel.loadXmlLoop, MainWindowModel.loadXmlContinues_eq, h0]
      rfl
    · simp only [Bool.not_eq_true] at h0
      by_cases h1 : (loadNextFromReader r).atEnd = true
      · refine ⟨1, false, by omega, fun extra => ?_⟩
        rw [hfuel]
        simp only [MainWindowModel.loadXmlLoop, MainWindowModel.loadXmlContinues_eq, h0, h1]
        rfl
      · have hlen2 : r.readNext.pending.length = n := by
          rw [QXmlStreamReader.readNext_pending_length, hlen]; rfl
        obtain ⟨k, success, hk, hrun⟩ := ih r.readNext hlen2
        refine ⟨k + 1, success, by omega, fun extra => ?_⟩
        rw [hfuel]
        simp only [MainWindowModel.loadXmlLoop, MainWindowModel.loadXmlContinues_eq, h0, h1]
        rw [QXmlStreamReader.after_succ]
        exact hrun extra

/-! ## Lemmas linking reader positions to the pending tokens -/

theorem QXmlStreamReader.after_succ_of_getElem (n : Nat) :
    ∀ (r : QXmlStreamReader) (t : XmlToken), r.pending[n]? = some t →
      r.after (n + 1) =
        { current := t, pending := r.pending.drop (n + 1), raised := r.raised,
          advances := r.advances + (n + 1) } := by
  induction n with
  | zero =>
    intro r t ht
    obtain ⟨cur, pending, raised, advances⟩ := r
    cases pending with
    | nil => simp at ht
    | cons u us =>
      simp only [List.getElem?_cons_zero, Option.some.injEq] at ht
      subst ht
      rfl
  | succ n ih =>
    intro r t ht
    obtain ⟨cur, pending, raised, advances⟩ := r
    cases pending with
    | nil => simp at ht
    | cons u us =>
      simp only [List.getElem?_cons_succ] at ht
      rw [QXmlStreamReader.after_succ]
      have hnext : QXmlStreamReader.readNext ⟨cur, u :: us, raised, advances⟩ =
          ⟨u, us, raised, advances + 1⟩ := rfl
      rw [hnext, ih ⟨u, us, raised, advances + 1⟩ t ht]
      simp only [List.drop_succ_cons, QXmlStreamReader.mk.injEq, true_and]
      omega

theorem closingIndex_spec (root : String) (ts : List XmlToken) :
    ∀ (opened : List String) (i : Nat), closingIndex root opened ts = some i →
      ∃ t, ts[i]? = some t ∧ t.tokenType = TokenType.EndElement ∧ t.name = root := by
  induction ts with
  | nil => intro opened i hi; simp [closingIndex] at hi
  | cons t ts ih =>
    intro opened i hi
    simp only [closingIndex] at hi
    split_ifs at hi with h1 h2 h3 h4 h5
    · simp only [Option.map_eq_some'] at hi
      obtain ⟨j, hj, rfl⟩ := hi
      simpa using ih _ j hj
    · simp only [Option.some.injEq] at hi
      subst hi
      cases opened with
      | nil => exact ⟨t, by simp, h2, by simpa using h3⟩
      | cons a as => simp at h4
    · simp only [Option.map_eq_some'] at hi
      obtain ⟨j, hj, rfl⟩ := hi
      simpa using ih _ j hj
    · simp only [Option.map_eq_some'] at hi
      obtain ⟨j, hj, rfl⟩ := hi
      simpa using ih _ j hj

theorem MainWindowModel.loadXml_of_loop (h : Headers) (fuel : Nat) (m : MainWindowModel)
    (r r1 : QXmlStreamReader) (success : Bool)
    (hloop : MainWindowModel.loadXmlLoop h fuel r = some (r1, success)) :
    MainWindowModel.loadXml h fuel m r =
      some (m, if success then r1
               else r1.raiseError (h.tr "Cannot read main window data")) := by
  unfold MainWindowModel.loadXml
  rw [hloop]
  cases success <;> rfl

theorem concatLines_cons (l : String) (ls : List String) :
    concatLines (l :: ls) = l ++ concatLines ls := rfl

theorem concatLines_nil : concatLines [] = "" := rfl

theorem key_equals_append (k kq : String) (hk : k ++ "=" = kq) (rest : String) :
    k ++ ("=" ++ rest) = kq ++ rest := by
  rw [← String.append_assoc, hk]

theorem NumberOptions.testFlag_self (flag : NumberOptions) :
    NumberOptions.testFlag flag flag = true := by
  simp [NumberOptions.testFlag]

/-! ## The claims -/

/-- C1: when an advance lands on an exhausted position (`atEnd ()` true after advance `k + 1`)
and neither the entry position nor any position before that advance is an `EndElement` named
`DOCUMENT_SERIALIZE_MAIN_WINDOW`, then `loadXml` returns (with any fuel of at least `k + 1`)
and has called `raiseError` exactly once, with the translated text of
"Cannot read main window data": the messages raised on the reader are those raised before
followed by this single one. -/
theorem loadXml_exhausted_raises_once (h : Headers) (m : MainWindowModel)
    (r : QXmlStreamReader) (k : Nat)
    (hEnd : (r.after (k + 1)).atEnd = true)
    (hOpen : ∀ j, j ≤ k → (r.after j).current.isMainWindowEnd h = false) :
    ∃ r1 : QXmlStreamReader,
      (∀ extra, MainWindowModel.loadXml h (k + 1 + extra) m r = some (m, r1)) ∧
      r1.raised = r.raised ++ [h.tr "Cannot read main window data"] := by
  obtain ⟨n, _, hrun⟩ := MainWindowModel.loadXmlLoop_exhausted h k r hEnd hOpen
  refine ⟨(r.after (n + 1)).raiseError (h.tr "Cannot read main window data"), ?_, ?_⟩
  · intro extra
    rw [MainWindowModel.loadXml_of_loop h _ m r _ _ (hrun extra)]
    rfl
  · show (r.after (n + 1)).raised ++ _ = _
    rw [QXmlStreamReader.after_raised]

/-- Instance of C1: the input of `truncatedReader` ends after one text token; the second advance
reports exhaustion and the error is raised once. -/
theorem loadXml_exhausted_raises_once_witness :
    (truncatedReader.after (1 + 1)).atEnd = true ∧
    (∀ j, j ≤ 1 → (truncatedReader.after j).current.isMainWindowEnd sampleHeaders = false) ∧
    ∃ r1 : QXmlStreamReader,
      (∀ extra, MainWindowModel.loadXml sampleHeaders (1 + 1 + extra) sampleModel
        truncatedReader = some (sampleModel, r1)) ∧
      r1.raised = truncatedReader.raised ++ [sampleHeaders.tr "Cannot read main window data"] :=
  ⟨by decide, by decide,
    loadXml_exhausted_raises_once sampleHeaders sampleModel truncatedReader 1
      (by decide) (by decide)⟩

/-- C2: the code evaluated at the failing input. `nestedReader` stands on the start element of
a well-formed main window subtree whose closing element is the pending token of index 2, and no
position is exhausted. The claim, and the comment "Read until end of this subtree" on line 94,
require the reader to be left on that closing element, reached after three advances. The loop
keeps no nesting depth: `loadXml` returns without an error after two advances, on the end
element of the nested element (pending index 1), and the closing element of the subtree is
still unread. -/
theorem loadXml_nested_stops_before_closing :
    nestedReader.current.tokenType = TokenType.StartElement ∧
    nestedReader.current.name = sampleHeaders.DOCUMENT_SERIALIZE_MAIN_WINDOW ∧
    closingIndex sampleHeaders.DOCUMENT_SERIALIZE_MAIN_WINDOW [] nestedReader.pending
      = some 2 ∧
    (∀ t ∈ nestedReader.pending, t.atEnd = false) ∧
    (∀ extra, MainWindowModel.loadXml sampleHeaders (3 + extra) sampleModel nestedReader =
      some (sampleModel, nestedReader.after 2)) ∧
    (nestedReader.after 2).raised = [] ∧
    (nestedReader.after 2).advances = 2 ∧
    (nestedReader.after 2).pending =
      [{ tokenType := .EndElement, name := "MainWindow", atEnd := false }] ∧
    nestedReader.after 2 ≠ nestedReader.after (2 + 1) := by
  refine ⟨by decide, by decide, by decide, by decide, ?_, by decide, by decide, by decide,
    by decide⟩
  intro extra
  have hloop := MainWindowModel.loadXmlLoop_closing sampleHeaders 2 nestedReader
    (by decide) (by decide) (by decide) extra
  rw [MainWindowModel.loadXml_of_loop sampleHeaders _ sampleModel nestedReader _ _ hloop]
  rfl

/-- Extent of the defect in the loop. On a reader that stands on the start element of a
well-formed main window subtree whose closing element is the pending token of index `i`, with
no exhausted position up to that token, `loadXml` returns without calling `raiseError`, after
`k + 1` advances with `k ≤ i`; the reader is left on the closing element of the subtree
(`k = i`) whenever no earlier token of the subtree is an `EndElement` of the same name, in
particular for the empty subtree. -/
theorem loadXml_wellFormed_subtree (h : Headers) (m : MainWindowModel)
    (r : QXmlStreamReader) (i : Nat)
    (hStart : r.current.tokenType = TokenType.StartElement ∧
      r.current.name = h.DOCUMENT_SERIALIZE_MAIN_WINDOW)
    (hWf : closingIndex h.DOCUMENT_SERIALIZE_MAIN_WINDOW [] r.pending = some i)
    (hLive : ∀ j t, j ≤ i → r.pending[j]? = some t → t.atEnd = false) :
    ∃ k t, k ≤ i ∧ r.pending[k]? = some t ∧ t.isMainWindowEnd h = true ∧
      (∀ j u, j < k → r.pending[j]? = some u → u.isMainWindowEnd h = false) ∧
      (∀ extra, MainWindowModel.loadXml h (k + 2 + extra) m r =
        some (m, { current := t, pending := r.pending.drop (k + 1), raised := r.raised,
                   advances := r.advances + (k + 1) })) ∧
      ((∀ j u, j < i → r.pending[j]? = some u → u.isMainWindowEnd h = false) → k = i) := by
  classical
  obtain ⟨ti, hti, htyp, hname⟩ := closingIndex_spec _ _ _ _ hWf
  have hex : ∃ j, ∃ t : XmlToken, r.pending[j]? = some t ∧ t.isMainWindowEnd h = true :=
    ⟨i, ti, hti, by simp [XmlToken.isMainWindowEnd, htyp, hname]⟩
  obtain ⟨t, ht, htClose⟩ := Nat.find_spec hex
  have hki : Nat.find hex ≤ i :=
    Nat.find_min' hex ⟨ti, hti, by simp [XmlToken.isMainWindowEnd, htyp, hname]⟩
  have hmin : ∀ j u, j < Nat.find hex → r.pending[j]? = some u →
      u.isMainWindowEnd h = false := by
    intro j u hj hu
    have := Nat.find_min hex hj
    simp only [not_exists, not_and, Bool.not_eq_true] at this
    exact this u hu
  have hlen : Nat.find hex < r.pending.length := by
    rcases Nat.lt_or_ge (Nat.find hex) r.pending.length with hl | hl
    · exact hl
    · rw [List.getElem?_eq_none hl] at ht; simp at ht
  have hget : ∀ j, j ≤ Nat.find hex → ∃ u, r.pending[j]? = some u := by
    intro j hj
    exact ⟨r.pending[j], List.getElem?_eq_getElem (by omega)⟩
  have hcur : r.current.isMainWindowEnd h = false := by
    simp [XmlToken.isMainWindowEnd, hStart.1]
  refine ⟨Nat.find hex, t, hki, ht, htClose, hmin, ?_, ?_⟩
  · intro extra
    have hloop := MainWindowModel.loadXmlLoop_closing h (Nat.find hex + 1) r
      (by rw [QXmlStreamReader.after_succ_of_getElem _ r t ht]; exact htClose)
      (by
        intro j hj
        cases j with
        | zero => exact hcur
        | succ j =>
          obtain ⟨u, hu⟩ := hget j (by omega)
          rw [QXmlStreamReader.after_succ_of_getElem _ r u hu]
          exact hmin j u (by omega) hu)
      (by
        intro j hj
        obtain ⟨u, hu⟩ := hget j (by omega)
        rw [QXmlStreamReader.after_succ_of_getElem _ r u hu]
        exact hLive j u (by omega) hu)
      extra
    have hfuel : Nat.find hex + 2 + extra = Nat.find hex + 1 + 1 + extra := by omega
    rw [hfuel, MainWindowModel.loadXml_of_loop h _ m r _ _ hloop,
      QXmlStreamReader.after_succ_of_getElem _ r t ht]
    rfl
  · intro hnone
    rcases Nat.lt_or_ge (Nat.find hex) i with hlt | hge
    · have := hnone _ t hlt ht
      rw [htClose] at this
      exact absurd this (by simp)
    · omega

/-- The empty subtree of `emptySubtreeReader`: the closing element is the very next token and
the reader stops on it after one advance. -/
theorem loadXml_wellFormed_subtree_witness :
    (emptySubtreeReader.current.tokenType = TokenType.StartElement ∧
      emptySubtreeReader.current.name = sampleHeaders.DOCUMENT_SERIALIZE_MAIN_WINDOW) ∧
    closingIndex sampleHeaders.DOCUMENT_SERIALIZE_MAIN_WINDOW [] emptySubtreeReader.pending
      = some 0 ∧
    ∃ k t, k ≤ 0 ∧ emptySubtreeReader.pending[k]? = some t ∧
      t.isMainWindowEnd sampleHeaders = true ∧
      (∀ j u, j < k → emptySubtreeReader.pending[j]? = some u →
        u.isMainWindowEnd sampleHeaders = false) ∧
      (∀ extra, MainWindowModel.loadXml sampleHeaders (k + 2 + extra) sampleModel
          emptySubtreeReader =
        some (sampleModel, { current := t, pending := emptySubtreeReader.pending.drop (k + 1),
                             raised := emptySubtreeReader.raised,
                             advances := emptySubtreeReader.advances + (k + 1) })) ∧
      ((∀ j u, j < 0 → emptySubtreeReader.pending[j]? = some u →
        u.isMainWindowEnd sampleHeaders = false) → k = 0) :=
  ⟨by decide, by decide,
    loadXml_wellFormed_subtree sampleHeaders sampleModel emptySubtreeReader 0
      (by decide) (by decide)
      (by
        intro j t hj ht
        have hj0 : j = 0 := by omega
        subst hj0
        simp [emptySubtreeReader] at ht
        subst ht
        rfl)⟩

/-- C3: for every object, `saveXml` issues exactly two calls to the writer, in this order:
`writeStartElement (DOCUMENT_SERIALIZE_MAIN_WINDOW)`, then `writeEndElement ()`, with nothing
in between; so any two objects leave the same writer behind. -/
theorem saveXml_writes_empty_element (h : Headers) (m : MainWindowModel)
    (writer : QXmlStreamWriter) :
    (MainWindowModel.saveXml h m writer).2.calls =
      writer.calls ++ [XmlWriterCall.writeStartElement h.DOCUMENT_SERIALIZE_MAIN_WINDOW,
                       XmlWriterCall.writeEndElement] ∧
    ∀ m2 : MainWindowModel,
      (MainWindowModel.saveXml h m2 writer).2 = (MainWindowModel.saveXml h m writer).2 := by
  constructor
  · simp [MainWindowModel.saveXml, QXmlStreamWriter.writeStartElement,
      QXmlStreamWriter.writeEndElement]
  · intro m2; rfl

/-- C4: for each of the nine fields other than the locale, the getter called after the setter
with `x` returns exactly `x`, for every object and every `x`; nothing is validated or clamped:
the opacity 1.5 is read back as 1.5, and any integer, zero and negatives included, is read
back as the pdf resolution. -/
theorem setter_getter_roundtrip (m : MainWindowModel) :
    (∀ x, (m.setZoomControl x).zoomControl = x) ∧
    (∀ x, (m.setZoomFactorInitial x).zoomFactorInitial = x) ∧
    (∀ x, (m.setMainTitleBarFormat x).mainTitleBarFormat = x) ∧
    (∀ x, (m.setPdfResolution x).pdfResolution = x) ∧
    (∀ x, (m.setImportCropping x).importCropping = x) ∧
    (∀ x, (m.setMaximumGridLines x).maximumGridLines = x) ∧
    (∀ x, (m.setHighlightOpacity x).highlightOpacity = x) ∧
    (∀ x, (m.setSmallDialogs x).smallDialogs = x) ∧
    (∀ x, (m.setDragDropExport x).dragDropExport = x) ∧
    (m.setHighlightOpacity Double.onePointFive).highlightOpacity = Double.onePointFive ∧
    (m.setPdfResolution 0).pdfResolution = 0 ∧
    (m.setPdfResolution (-72)).pdfResolution = -72 :=
  ⟨fun _ => rfl, fun _ => rfl, fun _ => rfl, fun _ => rfl, fun _ => rfl, fun _ => rfl,
    fun _ => rfl, fun _ => rfl, fun _ => rfl, rfl, rfl, rfl⟩

/-- C5: the copy constructor, and the assignment onto any target (the source itself
included), give an object whose ten fields equal those of the source, and leave the source as
it was; a setter call on the copy afterwards changes the copy (it becomes what the setter makes
of it) and leaves every field of the source unchanged. Source and copy are objects at the
different addresses `src` and `dst` of a store. -/
theorem copy_and_assign_value_semantics (h : Headers) (s : Store) (src dst : Nat)
    (target : MainWindowModel) (call : MainWindowModel.SetterCall) (hne : dst ≠ src) :
    MainWindowModel.sameFields (MainWindowModel.copyConstruct (s.obj src)) (s.obj src) ∧
    MainWindowModel.sameFields (MainWindowModel.assign target (s.obj src)) (s.obj src) ∧
    MainWindowModel.sameFields ((s.copyConstruct dst src).obj dst) (s.obj src) ∧
    MainWindowModel.sameFields ((s.assign dst src).obj dst) (s.obj src) ∧
    MainWindowModel.sameFields ((s.assign src src).obj src) (s.obj src) ∧
    (s.copyConstruct dst src).obj src = s.obj src ∧
    (s.assign dst src).obj src = s.obj src ∧
    ((s.copyConstruct dst src).call h dst call).obj dst =
      call.run h ((s.copyConstruct dst src).obj dst) ∧
    ((s.assign dst src).call h dst call).obj dst = call.run h ((s.assign dst src).obj dst) ∧
    MainWindowModel.sameFields (((s.copyConstruct dst src).call h dst call).obj src)
      (s.obj src) ∧
    MainWindowModel.sameFields (((s.assign dst src).call h dst call).obj src) (s.obj src) := by
  have hne2 : ¬ src = dst := fun e => hne e.symm
  refine ⟨?_, ?_, ?_, ?_, ?_, ?_, ?_, ?_, ?_, ?_, ?_⟩
  · exact ⟨rfl, rfl, rfl, rfl, rfl, rfl, rfl, rfl, rfl, rfl⟩
  · exact ⟨rfl, rfl, rfl, rfl, rfl, rfl, rfl, rfl, rfl, rfl⟩
  · simp [MainWindowModel.sameFields, Store.copyConstruct, Store.put, MainWindowModel.locale,
      MainWindowModel.zoomControl, MainWindowModel.zoomFactorInitial,
      MainWindowModel.mainTitleBarFormat, MainWindowModel.pdfResolution,
      MainWindowModel.importCropping, MainWindowModel.maximumGridLines,
      MainWindowModel.highlightOpacity, MainWindowModel.smallDialogs,
      MainWindowModel.dragDropExport]
  · simp [MainWindowModel.sameFields, Store.assign, Store.put, hne2, MainWindowModel.locale,
      MainWindowModel.zoomControl, MainWindowModel.zoomFactorInitial,
      MainWindowModel.mainTitleBarFormat, MainWindowModel.pdfResolution,
      MainWindowModel.importCropping, MainWindowModel.maximumGridLines,
      MainWindowModel.highlightOpacity, MainWindowModel.smallDialogs,
      MainWindowModel.dragDropExport]
  · simp [MainWindowModel.sameFields, Store.assign, Store.put, MainWindowModel.locale,
      MainWindowModel.zoomControl, MainWindowModel.zoomFactorInitial,
      MainWindowModel.mainTitleBarFormat, MainWindowModel.pdfResolution,
      MainWindowModel.importCropping, MainWindowModel.maximumGridLines,
      MainWindowModel.highlightOpacity, MainWindowModel.smallDialogs,
      MainWindowModel.dragDropExport]
  · simp [Store.copyConstruct, Store.put, hne2]
  · simp [Store.assign, Store.put, hne2]
  · cases call <;> simp [Store.call, MainWindowModel.SetterCall.run, Store.put,
      Store.setDragDropExport, Store.setHighlightOpacity, Store.setImportCropping,
      Store.setLocaleLanguageCountry, Store.setLocale, Store.setMainTitleBarFormat,
      Store.setMaximumGridLines, Store.setPdfResolution, Store.setSmallDialogs,
      Store.setZoomControl, Store.setZoomFactorInitial,
      MainWindowModel.setDragDropExport, MainWindowModel.setHighlightOpacity,
      MainWindowModel.setImportCropping, MainWindowModel.setLocaleLanguageCountry,
      MainWindowModel.setLocale, MainWindowModel.setMainTitleBarFormat,
      MainWindowModel.setMaximumGridLines, MainWindowModel.setPdfResolution,
      MainWindowModel.setSmallDialogs, MainWindowModel.setZoomControl,
      MainWindowModel.setZoomFactorInitial]
  · cases call <;> simp [Store.call, MainWindowModel.SetterCall.run, Store.put,
      Store.setDragDropExport, Store.setHighlightOpacity, Store.setImportCropping,
      Store.setLocaleLanguageCountry, Store.setLocale, Store.setMainTitleBarFormat,
      Store.setMaximumGridLines, Store.setPdfResolution, Store.setSmallDialogs,
      Store.setZoomControl, Store.setZoomFactorInitial,
      MainWindowModel.setDragDropExport, MainWindowModel.setHighlightOpacity,
      MainWindowModel.setImportCropping, MainWindowModel.setLocaleLanguageCountry,
      MainWindowModel.setLocale, MainWindowModel.setMainTitleBarFormat,
      MainWindowModel.setMaximumGridLines, MainWindowModel.setPdfResolution,
      MainWindowModel.setSmallDialogs, MainWindowModel.setZoomControl,
      MainWindowModel.setZoomFactorInitial]
  · have hsrc : ((s.copyConstruct dst src).call h dst call).obj src = s.obj src := by
      cases call <;> simp [Store.call, Store.put, Store.copyConstruct, hne2,
        Store.setDragDropExport, Store.setHighlightOpacity, Store.setImportCropping,
        Store.setLocaleLanguageCountry, Store.setLocale, Store.setMainTitleBarFormat,
        Store.setMaximumGridLines, Store.setPdfResolution, Store.setSmallDialogs,
        Store.setZoomControl, Store.setZoomFactorInitial]
    rw [hsrc]
    exact ⟨rfl, rfl, rfl, rfl, rfl, rfl, rfl, rfl, rfl, rfl⟩
  · have hsrc : ((s.assign dst src).call h dst call).obj src = s.obj src := by
      cases call <;> simp [Store.call, Store.put, Store.assign, hne2,
        Store.setDragDropExport, Store.setHighlightOpacity, Store.setImportCropping,
        Store.setLocaleLanguageCountry, Store.setLocale, Store.setMainTitleBarFormat,
        Store.setMaximumGridLines, Store.setPdfResolution, Store.setSmallDialogs,
        Store.setZoomControl, Store.setZoomFactorInitial]
    rw [hsrc]
    exact ⟨rfl, rfl, rfl, rfl, rfl, rfl, rfl, rfl, rfl, rfl⟩

/-- Instance of C5: in `sampleStore` the object at address 0 is copied to address 1 and the
copy gets `setPdfResolution (72)`; the copy then reports 72 and the source still reports
600. -/
theorem copy_and_assign_value_semantics_witness :
    (1 : Nat) ≠ 0 ∧
    (((sampleStore.copyConstruct 1 0).call sampleHeaders 1
      (MainWindowModel.SetterCall.setPdfResolution 72)).obj 1).pdfResolution = 72 ∧
    (((sampleStore.copyConstruct 1 0).call sampleHeaders 1
      (MainWindowModel.SetterCall.setPdfResolution 72)).obj 0).pdfResolution = 600 ∧
    MainWindowModel.sameFields
      (((sampleStore.copyConstruct 1 0).call sampleHeaders 1
        (MainWindowModel.SetterCall.setPdfResolution 72)).obj 0)
      (sampleStore.obj 0) :=
  ⟨by decide, by decide, by decide,
    (copy_and_assign_value_semantics sampleHeaders sampleStore 0 1 sampleModel
      (MainWindowModel.SetterCall.setPdfResolution 72) (by decide)).2.2.2.2.2.2.2.2.2.1⟩

/-- C6: a default constructed object has the documented default in every field: the combined
menu, wheel and plus/minus zoom control, the title bar format that shows the path, small
dialogs and drag and drop export off, the `DEFAULT_` constants for initial zoom factor, pdf
resolution, import cropping, maximum grid lines and highlight opacity, and the default
locale. -/
theorem construct_defaults (h : Headers) :
    (MainWindowModel.construct h).zoomControl = h.ZOOM_CONTROL_MENU_WHEEL_PLUSMINUS ∧
    (MainWindowModel.construct h).mainTitleBarFormat = h.MAIN_TITLE_BAR_FORMAT_PATH ∧
    (MainWindowModel.construct h).smallDialogs = false ∧
    (MainWindowModel.construct h).dragDropExport = false ∧
    (MainWindowModel.construct h).zoomFactorInitial = h.DEFAULT_ZOOM_FACTOR_INITIAL ∧
    (MainWindowModel.construct h).pdfResolution = h.DEFAULT_IMPORT_PDF_RESOLUTION ∧
    (MainWindowModel.construct h).importCropping = h.DEFAULT_IMPORT_CROPPING ∧
    (MainWindowModel.construct h).maximumGridLines = h.DEFAULT_MAXIMUM_GRID_LINES ∧
    (MainWindowModel.construct h).highlightOpacity = h.DEFAULT_HIGHLIGHT_OPACITY ∧
    (MainWindowModel.construct h).locale = h.defaultLocale :=
  ⟨rfl, rfl, rfl, rfl, rfl, rfl, rfl, rfl, rfl, rfl⟩

/-- C7: after either overload of `setLocale`, for every language and country and for every
locale whatever number options it carried, the locale returned by `locale ()` has the
`OmitGroupSeparator` number option set. -/
theorem setLocale_omits_group_separator (h : Headers) (m : MainWindowModel) :
    (∀ language country : Int,
      (m.setLocaleLanguageCountry h language country).locale.omitsGroupSeparator = true) ∧
    (∀ locale : QLocale, (m.setLocale locale).locale.omitsGroupSeparator = true) :=
  ⟨fun _ _ => NumberOptions.testFlag_self _, fun _ => NumberOptions.testFlag_self _⟩

/-- C8: for every object and every indentation, `printStream` appends to the stream one header
line, the indentation followed by "MainWindowModel", and then ten field lines, one per field,
in the order locale, zoomControl, zoomFactorInitial, mainWindowTitleBarFormat, pdfResolution,
importCropping, maximumGridLines, highlightOpacity, smallDialogs, dragDropExport; each field
line is the indentation followed by `INDENTATION_DELTA`, the key, an equals sign, the value
and a newline. -/
theorem printStream_layout (h : Headers) (m : MainWindowModel) (indentation : String)
    (str : QTextStream) :
    (MainWindowModel.printStream h m indentation str).2.text =
      str.text ++ (indentation ++ "MainWindowModel\n") ++
        concatLines ((MainWindowModel.printStreamFields h m).map
          (fieldLine (indentation ++ h.INDENTATION_DELTA))) ∧
    (MainWindowModel.printStreamFields h m).map Prod.fst =
      ["locale", "zoomControl", "zoomFactorInitial", "mainWindowTitleBarFormat",
       "pdfResolution", "importCropping", "maximumGridLines", "highlightOpacity",
       "smallDialogs", "dragDropExport"] := by
  constructor
  · simp only [MainWindowModel.printStream, QTextStream.put,
      MainWindowModel.printStreamFields, List.map, fieldLine, concatLines_cons,
      concatLines_nil, String.append_assoc, String.append_empty,
      MainWindowModel.locale, MainWindowModel.zoomControl, MainWindowModel.zoomFactorInitial,
      MainWindowModel.mainTitleBarFormat, MainWindowModel.pdfResolution,
      MainWindowModel.importCropping, MainWindowModel.maximumGridLines,
      MainWindowModel.highlightOpacity, MainWindowModel.smallDialogs,
      MainWindowModel.dragDropExport,
      key_equals_append "locale" "locale=" (by decide),
      key_equals_append "zoomControl" "zoomControl=" (by decide),
      key_equals_append "zoomFactorInitial" "zoomFactorInitial=" (by decide),
      key_equals_append "mainWindowTitleBarFormat" "mainWindowTitleBarFormat=" (by decide),
      key_equals_append "pdfResolution" "pdfResolution=" (by decide),
      key_equals_append "importCropping" "importCropping=" (by decide),
      key_equals_append "maximumGridLines" "maximumGridLines=" (by decide),
      key_equals_append "highlightOpacity" "highlightOpacity=" (by decide),
      key_equals_append "smallDialogs" "smallDialogs=" (by decide),
      key_equals_append "dragDropExport" "dragDropExport=" (by decide)]
  · rfl

/-- C9: `loadXml`, `saveXml` and `printStream` leave the object as it was, whatever the
reader, writer or text stream: `loadXml` returns (with any fuel of at least the number of
pending tokens plus two) and the object it returns, with this or any other fuel, is the one it
received, so no field is populated from the document; `saveXml` and `printStream` return the
object they received. -/
theorem methods_leave_model_unchanged (h : Headers) (m : MainWindowModel)
    (reader : QXmlStreamReader) (writer : QXmlStreamWriter) (indentation : String)
    (str : QTextStream) :
    (∃ r1, ∀ extra, MainWindowModel.loadXml h (reader.pending.length + 2 + extra) m reader =
      some (m, r1)) ∧
    (∀ fuel res, MainWindowModel.loadXml h fuel m reader = some res → res.1 = m) ∧
    (MainWindowModel.saveXml h m writer).1 = m ∧
    (MainWindowModel.printStream h m indentation str).1 = m := by
  refine ⟨?_, ?_, rfl, rfl⟩
  · obtain ⟨k, success, _, hrun⟩ :=
      MainWindowModel.loadXmlLoop_total h reader.pending.length reader rfl
    exact ⟨_, fun extra => MainWindowModel.loadXml_of_loop h _ m reader _ _ (hrun extra)⟩
  · intro fuel res hres
    unfold MainWindowModel.loadXml at hres
    split at hres
    · simp at hres
    · split at hres <;> · simp only [Option.some.injEq] at hres; rw [← hres]

/-- C10: on a reader over a finite token stream the loop of `loadXml` terminates: with any
fuel of at least the number of pending tokens plus two `loadXml` returns, and the number of
advances it has performed is at most the number of pending tokens plus one. -/
theorem loadXml_terminates (h : Headers) (m : MainWindowModel) (reader : QXmlStreamReader) :
    ∃ r1 : QXmlStreamReader,
      (∀ extra, MainWindowModel.loadXml h (reader.pending.length + 2 + extra) m reader =
        some (m, r1)) ∧
      r1.advances ≤ reader.advances + (reader.pending.length + 1) := by
  obtain ⟨k, success, hk, hrun⟩ :=
    MainWindowModel.loadXmlLoop_total h reader.pending.length reader rfl
  refine ⟨_, fun extra => MainWindowModel.loadXml_of_loop h _ m reader _ _ (hrun extra), ?_⟩
  have hadv : (reader.after k).advances = reader.advances + k :=
    QXmlStreamReader.after_advances k reader
  cases success
  · show (reader.after k).advances ≤ _
    omega
  · show (reader.after k).advances ≤ _
    omega

/-! ## Further lemmas on the reader and the loop -/

theorem QXmlStreamReader.readNext_pending (r : QXmlStreamReader) :
    r.readNext.pending = r.pending.drop 1 := by
  unfold QXmlStreamReader.readNext
  split
  next t ts hp => simp [hp]
  next hp => simp [hp]

theorem QXmlStreamReader.after_pending (n : Nat) :
    ∀ r : QXmlStreamReader, (r.after n).pending = r.pending.drop n := by
  induction n with
  | zero => intro r; simp [QXmlStreamReader.after_zero]
  | succ n ih =>
    intro r
    rw [QXmlStreamReader.after_succ, ih, QXmlStreamReader.readNext_pending, List.drop_drop]
    congr 1
    omega

/-- The loop stops at the first closing main window element when the advances that land before
it do not report exhaustion; it leaves through the `atEnd` test exactly when that element is not
the entry position and reports exhaustion itself. -/
theorem MainWindowModel.loadXmlLoop_first_end (h : Headers) (k : Nat) :
    ∀ r : QXmlStreamReader, (r.after k).current.isMainWindowEnd h = true →
      (∀ j, j < k → (r.after j).current.isMainWindowEnd h = false) →
      (∀ j, j < k → j ≠ 0 → (r.after j).atEnd = false) →
      ∀ extra, MainWindowModel.loadXmlLoop h (k + 1 + extra) r =
        some (r.after k, k = 0 || !(r.after k).atEnd) := by
  induction k with
  | zero =>
    intro r hClose _ _ extra
    rw [QXmlStreamReader.after_zero] at hClose
    have hfuel : 0 + 1 + extra = extra + 1 := by omega
    rw [hfuel]
    simp only [MainWindowModel.loadXmlLoop, MainWindowModel.loadXmlContinues_eq, hClose]
    rfl
  | succ k ih =>
    intro r hClose hOpen hLive extra
    have h0 := hOpen 0 (Nat.succ_pos _)
    rw [QXmlStreamReader.after_zero] at h0
    have hfuel : k + 1 + 1 + extra = (k + 1 + extra) + 1 := by omega
    cases k with
    | zero =>
      have hClose1 : (loadNextFromReader r).current.isMainWindowEnd h = true := hClose
      have hafter : r.after (0 + 1) = loadNextFromReader r := rfl
      rw [hfuel, hafter]
      cases hEnd : (loadNextFromReader r).atEnd with
      | true =>
        simp only [MainWindowModel.loadXmlLoop, MainWindowModel.loadXmlContinues_eq, h0, hEnd]
        rfl
      | false =>
        have hfuel2 : 0 + 1 + extra = extra + 1 := by omega
        rw [hfuel2]
        simp only [MainWindowModel.loadXmlLoop, MainWindowModel.loadXmlContinues_eq, h0, hEnd,
          hClose1]
        rfl
    | succ k =>
      have h1 : (loadNextFromReader r).atEnd = false := hLive 1 (by omega) (by omega)
      rw [hfuel]
      simp only [MainWindowModel.loadXmlLoop, MainWindowModel.loadXmlContinues_eq, h0, h1]
      have hrec := ih r.readNext
        (by rw [← QXmlStreamReader.after_succ]; exact hClose)
        (by
          intro j hj
          rw [← QXmlStreamReader.after_succ]
          exact hOpen (j + 1) (by omega))
        (by
          intro j hj _
          rw [← QXmlStreamReader.after_succ]
          exact hLive (j + 1) (by omega) (by omega))
        extra
      rw [QXmlStreamReader.after_succ]
      simpa using hrec

/-- Outcome of the loop on a reader with `n` pending tokens: it returns after `k` advances, no
position before the last is a closing main window element and no advance before the last lands
on an exhausted position; it leaves through its condition (`success` true) on a closing element,
and through the `atEnd` test (`success` false) on an exhausted position reached by an advance. -/
theorem MainWindowModel.loadXmlLoop_outcome (h : Headers) (n : Nat) :
    ∀ r : QXmlStreamReader, r.pending.length = n →
      ∃ k success, k ≤ n + 1 ∧
        (∀ extra, MainWindowModel.loadXmlLoop h (n + 2 + extra) r =
          some (r.after k, success)) ∧
        (∀ j, j < k → (r.after j).current.isMainWindowEnd h = false) ∧
        (∀ j, j < k → j ≠ 0 → (r.after j).atEnd = false) ∧
        (success = true → (r.after k).current.isMainWindowEnd h = true ∧
          (k ≠ 0 → (r.after k).atEnd = false)) ∧
        (success = false → k ≠ 0 ∧ (r.after k).atEnd = true) := by
  induction n with
  | zero =>
    intro r hlen
    have hp : r.pending = [] := List.length_eq_zero.mp hlen
    have hfuel : ∀ extra, 0 + 2 + extra = (extra + 1) + 1 := by intro extra; omega
    cases h0 : r.current.isMainWindowEnd h with
    | true =>
      refine ⟨0, true, Nat.zero_le _, fun extra => ?_, ?_, ?_, fun _ => ⟨h0, ?_⟩, ?_⟩
      · rw [hfuel]
        simp only [MainWindowModel.loadXmlLoop, MainWindowModel.loadXmlContinues_eq, h0]
        rfl
      · intro j hj; omega
      · intro j hj; omega
      · intro hk; exact absurd rfl hk
      · intro hs; cases hs
    | false =>
      have h1 : (loadNextFromReader r).atEnd = true :=
        QXmlStreamReader.readNext_atEnd_of_nil r hp
      refine ⟨1, false, le_refl _, fun extra => ?_, ?_, ?_, ?_, fun _ => ⟨by omega, h1⟩⟩
      · rw [hfuel]
        simp only [MainWindowModel.loadXmlLoop, MainWindowModel.loadXmlContinues_eq, h0, h1]
        rfl
      · intro j hj
        have hj0 : j = 0 := by omega
        subst hj0
        exact h0
      · intro j hj hne; omega
      · intro hs; cases hs
  | succ n ih =>
    intro r hlen
    have hfuel : ∀ extra, n + 1 + 2 + extra = (n + 2 + extra) + 1 := by intro extra; omega
    cases h0 : r.current.isMainWindowEnd h with
    | true =>
      refine ⟨0, true, Nat.zero_le _, fun extra => ?_, ?_, ?_, fun _ => ⟨h0, ?_⟩, ?_⟩
      · rw [hfuel]
        simp only [MainWindowModel.loadXmlLoop, MainWindowModel.loadXmlContinues_eq, h0]
        rfl
      · intro j hj; omega
      · intro j hj; omega
      · intro hk; exact absurd rfl hk
      · intro hs; cases hs
    | false =>
      cases h1 : (loadNextFromReader r).atEnd with
      | true =>
        refine ⟨1, false, by omega, fun extra => ?_, ?_, ?_, ?_, fun _ => ⟨by omega, h1⟩⟩
        · rw [hfuel]
          simp only [MainWindowModel.loadXmlLoop, MainWindowModel.loadXmlContinues_eq, h0, h1]
          rfl
        · intro j hj
          have hj0 : j = 0 := by omega
          subst hj0
          exact h0
        · intro j hj hne; omega
        · intro hs; cases hs
      | false =>
        have hlen2 : r.readNext.pending.length = n := by
          rw [QXmlStreamReader.readNext_pending_length, hlen]; rfl
        obtain ⟨k, success, hk, hrun, hOpen, hLive, hOk, hErr⟩ := ih r.readNext hlen2
        refine ⟨k + 1, success, by omega, fun extra => ?_, ?_, ?_, ?_, ?_⟩
        · rw [hfuel]
          simp only [MainWindowModel.loadXmlLoop, MainWindowModel.loadXmlContinues_eq, h0, h1]
          rw [QXmlStreamReader.after_succ]
          simpa using hrun extra
        · intro j hj
          cases j with
          | zero => exact h0
          | succ j =>
            rw [QXmlStreamReader.after_succ]
            exact hOpen j (by omega)
        · intro j hj _
          cases j with
          | zero => omega
          | succ j =>
            rw [QXmlStreamReader.after_succ]
            cases j with
            | zero => exact h1
            | succ j => exact hLive (j + 1) (by omega) (by omega)
        · intro hs
          rw [QXmlStreamReader.after_succ]
          refine ⟨(hOk hs).1, fun _ => ?_⟩
          cases k with
          | zero => exact h1
          | succ k => exact (hOk hs).2 (by omega)
        · intro hs
          rw [QXmlStreamReader.after_succ]
          exact ⟨by omega, (hErr hs).2⟩

theorem QXmlStreamReader.raiseError_raised_ne (r : QXmlStreamReader) (message : String) :
    (r.raiseError message).raised ≠ r.raised := by
  intro hEq
  have hlen := congrArg List.length hEq
  simp [QXmlStreamReader.raiseError] at hlen

theorem one_land_test (n : Nat) (hn : n ≠ 1) :
    ((1 &&& n == n) && (n != 0 || 1 == n)) = false := by
  rw [Nat.one_and_eq_mod_two]
  have hmod : n = 0 ∨ ¬ (n % 2 = n) := by omega
  rcases hmod with hz | hm
  · rw [hz]; rfl
  · simp [hm]

theorem NumberOptions.testFlag_omit_other (flag : NumberOptions)
    (hflag : flag ≠ QLocale.OmitGroupSeparator) :
    NumberOptions.testFlag QLocale.OmitGroupSeparator flag = false :=
  one_land_test flag hflag

/-! ## The claims on setters, error raising, nesting and number options -/

/-- C11: each setter changes only its own field: for every object, every setter call (both
overloads of `setLocale` included) and every field other than the one the setter is named
after, the getter of that field returns the same value after the call as before it. -/
theorem setter_changes_only_its_field (h : Headers) (m : MainWindowModel)
    (call : MainWindowModel.SetterCall) (f : MainWindowModel.Field)
    (hf : f ≠ call.target) :
    f.sameOn (call.run h m) m := by
  cases call <;> cases f <;> first
    | exact absurd rfl hf
    | exact rfl

/-- Instance of C11: `setPdfResolution (600)` on the sample object leaves the locale as it
was. -/
theorem setter_changes_only_its_field_witness :
    MainWindowModel.Field.locale ≠
      (MainWindowModel.SetterCall.setPdfResolution 600).target ∧
    MainWindowModel.Field.locale.sameOn
      ((MainWindowModel.SetterCall.setPdfResolution 600).run sampleHeaders sampleModel)
      sampleModel :=
  ⟨by decide,
    setter_changes_only_its_field sampleHeaders sampleModel
      (MainWindowModel.SetterCall.setPdfResolution 600) MainWindowModel.Field.locale
      (by decide)⟩

/-- C12: `loadXml` returns, and it raises the reader error if and only if its loop leaves
through the `atEnd` test (`success` false), which is the case if and only if some advance lands
on a position reporting `atEnd ()` while neither the entry position nor any position before that
advance is an `EndElement` named `DOCUMENT_SERIALIZE_MAIN_WINDOW`. In particular an advance
that lands on that closing element while the reader reports exhaustion still raises the error,
and a reader that stands on the closing element at entry is returned as it was, with no advance
and no error, whatever it reports for `atEnd ()`. -/
theorem loadXml_raises_iff_exhausted (h : Headers) (m : MainWindowModel)
    (r : QXmlStreamReader) :
    ∃ (r0 : QXmlStreamReader) (success : Bool) (r1 : QXmlStreamReader),
      (∀ extra, MainWindowModel.loadXmlLoop h (r.pending.length + 2 + extra) r =
        some (r0, success)) ∧
      (∀ extra, MainWindowModel.loadXml h (r.pending.length + 2 + extra) m r =
        some (m, r1)) ∧
      (success = false ↔ r.exhaustedBeforeEnd h) ∧
      (r1.raised = r.raised ++ [h.tr "Cannot read main window data"] ↔
        r.exhaustedBeforeEnd h) ∧
      (r1.raised = r.raised ↔ ¬ r.exhaustedBeforeEnd h) ∧
      (∀ k, (r.after (k + 1)).current.isMainWindowEnd h = true →
        (r.after (k + 1)).atEnd = true →
        (∀ j, j ≤ k → (r.after j).current.isMainWindowEnd h = false) →
        r1.raised = r.raised ++ [h.tr "Cannot read main window data"]) ∧
      (r.current.isMainWindowEnd h = true → r1 = r) := by
  obtain ⟨k, success, _, hrun, hOpen, hLive, hOk, hErr⟩ :=
    MainWindowModel.loadXmlLoop_outcome h r.pending.length r rfl
  have hiff : success = false ↔ r.exhaustedBeforeEnd h := by
    constructor
    · intro hs
      obtain ⟨hk, hEnd⟩ := hErr hs
      refine ⟨k - 1, ?_, ?_⟩
      · have hk1 : k - 1 + 1 = k := by omega
        rw [hk1]; exact hEnd
      · intro j hj
        exact hOpen j (by omega)
    · rintro ⟨k0, hEnd0, hOpen0⟩
      cases hs : success with
      | false => rfl
      | true =>
        exfalso
        obtain ⟨hClose, hLast⟩ := hOk hs
        rcases Nat.lt_or_ge k0 k with hlt | hge
        · rcases Nat.lt_or_ge (k0 + 1) k with hlt2 | hge2
          · have := hLive (k0 + 1) hlt2 (by omega)
            rw [hEnd0] at this
            exact absurd this (by simp)
          · have hk : k0 + 1 = k := by omega
            have := hLast (by omega)
            rw [← hk, hEnd0] at this
            exact absurd this (by simp)
        · have := hOpen0 k hge
          rw [hClose] at this
          exact absurd this (by simp)
  have hraised : (r.after k).raised = r.raised := QXmlStreamReader.after_raised k r
  refine ⟨r.after k, success,
    if success then r.after k
    else (r.after k).raiseError (h.tr "Cannot read main window data"),
    hrun, fun extra => MainWindowModel.loadXml_of_loop h _ m r _ _ (hrun extra), hiff, ?_, ?_,
    ?_, ?_⟩
  · rw [← hiff]
    cases success with
    | false =>
      simp only [Bool.false_eq_true, if_false, iff_true]
      show (r.after k).raised ++ _ = _
      rw [hraised]
    | true =>
      simp only [if_true, hraised]
      constructor
      · intro hEq
        have hlen := congrArg List.length hEq
        simp at hlen
      · intro hs; cases hs
  · rw [← hiff]
    cases success with
    | false =>
      simp only [Bool.false_eq_true, if_false, not_true_eq_false, iff_false]
      intro hEq
      exact QXmlStreamReader.raiseError_raised_ne (r.after k) _ (hEq.trans hraised.symm)
    | true =>
      simp only [if_true, hraised, true_iff]
      intro hs; cases hs
  · intro k0 _ hEnd0 hOpen0
    have hs : success = false := hiff.mpr ⟨k0, hEnd0, hOpen0⟩
    subst hs
    show (r.after k).raised ++ _ = _
    rw [hraised]
  · intro hEntry
    have hk : k = 0 := by
      rcases Nat.eq_zero_or_pos k with hz | hpos
      · exact hz
      · have := hOpen 0 hpos
        rw [QXmlStreamReader.after_zero, hEntry] at this
        exact absurd this (by simp)
    subst hk
    cases hs : success with
    | false => exact absurd rfl (hErr hs).1
    | true => rfl

/-- Instance of C12: on `landingReader` the first advance lands on the closing element while
the reader reports exhaustion, and the error is raised; `entryReader` stands on the closing
element at entry while reporting exhaustion, and is returned as it was. -/
theorem loadXml_raises_iff_exhausted_witness :
    (∃ (r0 : QXmlStreamReader) (success : Bool) (r1 : QXmlStreamReader),
      (∀ extra, MainWindowModel.loadXmlLoop sampleHeaders
        (landingReader.pending.length + 2 + extra) landingReader = some (r0, success)) ∧
      (∀ extra, MainWindowModel.loadXml sampleHeaders
        (landingReader.pending.length + 2 + extra) sampleModel landingReader =
        some (sampleModel, r1)) ∧
      (success = false ↔ landingReader.exhaustedBeforeEnd sampleHeaders) ∧
      (r1.raised = landingReader.raised ++ [sampleHeaders.tr "Cannot read main window data"] ↔
        landingReader.exhaustedBeforeEnd sampleHeaders) ∧
      (r1.raised = landingReader.raised ↔ ¬ landingReader.exhaustedBeforeEnd sampleHeaders) ∧
      (∀ k, (landingReader.after (k + 1)).current.isMainWindowEnd sampleHeaders = true →
        (landingReader.after (k + 1)).atEnd = true →
        (∀ j, j ≤ k → (landingReader.after j).current.isMainWindowEnd sampleHeaders = false) →
        r1.raised = landingReader.raised ++
          [sampleHeaders.tr "Cannot read main window data"]) ∧
      (landingReader.current.isMainWindowEnd sampleHeaders = true → r1 = landingReader)) ∧
    ((MainWindowModel.loadXml sampleHeaders 3 sampleModel landingReader).map
      (fun res => (res.2.raised, res.2.advances)) =
      some (["Cannot read main window data"], 1)) ∧
    MainWindowModel.loadXml sampleHeaders 3 sampleModel entryReader =
      some (sampleModel, entryReader) ∧
    entryReader.atEnd = true :=
  ⟨loadXml_raises_iff_exhausted sampleHeaders sampleModel landingReader,
    by decide, by decide, by decide⟩

/-- C13: `loadXml` keeps no nesting depth. When the first `EndElement` named
`DOCUMENT_SERIALIZE_MAIN_WINDOW` is reached after `k` advances (no earlier position, the entry
position included, is such a token) and no advance landing before it reports exhaustion, then
`loadXml` returns after exactly `k` advances and leaves every later token unread, whatever
element that token closes; it is returned standing on that token when the token is the entry
position or does not report exhaustion. An `EndElement` with another name, and a token of
another type with that name, keep the loop going. -/
theorem loadXml_stops_at_first_end (h : Headers) (m : MainWindowModel)
    (r : QXmlStreamReader) (k : Nat)
    (hFirst : (r.after k).current.isMainWindowEnd h = true)
    (hBefore : ∀ j, j < k → (r.after j).current.isMainWindowEnd h = false)
    (hLive : ∀ j, j < k → j ≠ 0 → (r.after j).atEnd = false) :
    ∃ r1 : QXmlStreamReader,
      (∀ extra, MainWindowModel.loadXml h (k + 1 + extra) m r = some (m, r1)) ∧
      r1.advances = r.advances + k ∧
      r1.pending = r.pending.drop k ∧
      (k = 0 ∨ (r.after k).atEnd = false → r1 = r.after k) ∧
      (∀ reader : QXmlStreamReader,
        (reader.tokenType = TokenType.EndElement ∧
            reader.name ≠ h.DOCUMENT_SERIALIZE_MAIN_WINDOW) ∨
          (reader.tokenType ≠ TokenType.EndElement ∧
            reader.name = h.DOCUMENT_SERIALIZE_MAIN_WINDOW) →
        MainWindowModel.loadXmlContinues h reader = true) := by
  have hloop := MainWindowModel.loadXmlLoop_first_end h k r hFirst hBefore hLive
  have hadv : (r.after k).advances = r.advances + k := QXmlStreamReader.after_advances k r
  have hpend : (r.after k).pending = r.pending.drop k := QXmlStreamReader.after_pending k r
  refine ⟨if (decide (k = 0) || !(r.after k).atEnd) = true then r.after k
      else (r.after k).raiseError (h.tr "Cannot read main window data"),
    fun extra => MainWindowModel.loadXml_of_loop h _ m r _ _ (hloop extra), ?_, ?_, ?_, ?_⟩
  · split
    · exact hadv
    · exact hadv
  · split
    · exact hpend
    · exact hpend
  · intro hcase
    have hcond : (decide (k = 0) || !(r.after k).atEnd) = true := by
      rcases hcase with hk | hEnd
      · simp [hk]
      · simp [hEnd]
    rw [if_pos hcond]
  · intro reader hcase
    unfold MainWindowModel.loadXmlContinues
    rcases hcase with ⟨_, hname⟩ | ⟨htype, _⟩
    · simp [hname]
    · simp [htype]

/-- Instance of C13: on `mixedReader` the loop passes an end element of another name, a start
element named like the subtree and a text token, and stops after five advances on the end
element of the nested element, leaving the closing element of the subtree and the rest
unread. -/
theorem loadXml_stops_at_first_end_witness :
    (mixedReader.after 5).current.isMainWindowEnd sampleHeaders = true ∧
    (∀ j, j < 5 → (mixedReader.after j).current.isMainWindowEnd sampleHeaders = false) ∧
    (∀ j, j < 5 → j ≠ 0 → (mixedReader.after j).atEnd = false) ∧
    closingIndex sampleHeaders.DOCUMENT_SERIALIZE_MAIN_WINDOW [] mixedReader.pending
      = some 5 ∧
    ∃ r1 : QXmlStreamReader,
      (∀ extra, MainWindowModel.loadXml sampleHeaders (5 + 1 + extra) sampleModel mixedReader =
        some (sampleModel, r1)) ∧
      r1.advances = mixedReader.advances + 5 ∧
      r1.pending = mixedReader.pending.drop 5 ∧
      (5 = 0 ∨ (mixedReader.after 5).atEnd = false → r1 = mixedReader.after 5) ∧
      (∀ reader : QXmlStreamReader,
        (reader.tokenType = TokenType.EndElement ∧
            reader.name ≠ sampleHeaders.DOCUMENT_SERIALIZE_MAIN_WINDOW) ∨
          (reader.tokenType ≠ TokenType.EndElement ∧
            reader.name = sampleHeaders.DOCUMENT_SERIALIZE_MAIN_WINDOW) →
        MainWindowModel.loadXmlContinues sampleHeaders reader = true) :=
  ⟨by decide, by decide, by decide, by decide,
    loadXml_stops_at_first_end sampleHeaders sampleModel mixedReader 5
      (by decide) (by decide) (by decide)⟩

/-- C14: both overloads of `setLocale` replace the number options of the locale: after
`setLocale (locale)` the stored locale has the language and the country of the argument and its
number options are exactly `OmitGroupSeparator`, so no other number option is set, whatever
the argument carried; the same holds for the options stored by `setLocale (language, country)`,
which stores the same value as `setLocale (QLocale (language, country))`. -/
theorem setLocale_replaces_number_options (h : Headers) (m : MainWindowModel)
    (locale : QLocale) (language country : Int) :
    (m.setLocale locale).locale.language = locale.language ∧
    (m.setLocale locale).locale.country = locale.country ∧
    (m.setLocale locale).locale.numberOptions = QLocale.OmitGroupSeparator ∧
    (∀ flag : NumberOptions, flag ≠ QLocale.OmitGroupSeparator →
      NumberOptions.testFlag (m.setLocale locale).locale.numberOptions flag = false) ∧
    (m.setLocaleLanguageCountry h language country).locale.numberOptions =
      QLocale.OmitGroupSeparator ∧
    (∀ flag : NumberOptions, flag ≠ QLocale.OmitGroupSeparator →
      NumberOptions.testFlag
        (m.setLocaleLanguageCountry h language country).locale.numberOptions flag = false) ∧
    m.setLocaleLanguageCountry h language country =
      m.setLocale (h.mkLocale language country) :=
  ⟨rfl, rfl, rfl, fun flag hflag => NumberOptions.testFlag_omit_other flag hflag, rfl,
    fun flag hflag => NumberOptions.testFlag_omit_other flag hflag, rfl⟩

/-- Instance of C14: a locale that carries the options 0x02 and 0x04 is stored with the single
option `OmitGroupSeparator`; the option 0x04 it carried is no longer set. -/
theorem setLocale_replaces_number_options_witness :
    NumberOptions.testFlag
      ({ language := 31, country := 225, numberOptions := 0x06 } : QLocale).numberOptions
      0x04 = true ∧
    (sampleModel.setLocale { language := 31, country := 225, numberOptions := 0x06 }).locale =
      { language := 31, country := 225, numberOptions := 0x01 } ∧
    NumberOptions.testFlag
      (sampleModel.setLocale
        { language := 31, country := 225, numberOptions := 0x06 }).locale.numberOptions
      0x04 = false :=
  ⟨by decide, by decide,
    (setLocale_replaces_number_options sampleHeaders sampleModel
      { language := 31, country := 225, numberOptions := 0x06 } 31 225).2.2.2.1 0x04
      (by decide)⟩

end Engauge
